import Mathlib

/-!
Verification development for the cloudsh cp/mv transfer engine
(src/cloudsh/commands/cp.py and src/cloudsh/commands/mv.py).

The Python commands are shallowly embedded as computable Lean functions over
an explicit filesystem state.  Local and cloud paths share one path type; a
cloud "directory" is virtual (it exists iff some entry lies strictly below
it), matching cloudpathlib semantics.  Side effects (stderr, stdout, the
event trace of provider calls) are threaded through a small state monad, and
`sys.exit` / Python exceptions are the non-`ok` results of the machine.

External collaborators that are not part of the repository (yunpath /
cloudpathlib / provider SDKs) are modelled as primitive operations; each
primitive's doc comment states the behaviour assumed of the collaborator.
-/

/-- Cloud provider of a path (GCS, S3, Azure), mirroring the
`GSPath` / `S3Path` / `AzureBlobPath` isinstance checks in the source. -/
inductive Provider where
  | gs
  | s3
  | azure
  deriving DecidableEq, Repr

/-- Storage scheme: the local filesystem, or a provider plus bucket/container. -/
inductive Scheme where
  | loc
  | cloud (p : Provider) (bucket : String)
  deriving DecidableEq, Repr

/-- A path: a scheme plus the list of path segments under the root
(or under the bucket, for cloud paths). -/
structure CPath where
  scheme : Scheme
  segs : List String
  deriving DecidableEq, Repr

/-- Final path segment, the Python `path.name`. -/
def CPath.name (p : CPath) : String := p.segs.getLast?.getD ""

/-- Parent path, the Python `path.parent`. -/
def CPath.parent (p : CPath) : CPath := ⟨p.scheme, p.segs.dropLast⟩

/-- Join with one more segment, the Python `path / name`. -/
def CPath.child (p : CPath) (n : String) : CPath := ⟨p.scheme, p.segs ++ [n]⟩

/-- Whether this is a cloud path (`isinstance(p, CloudPath)`). -/
def CPath.isCloud (p : CPath) : Bool :=
  match p.scheme with
  | .loc => false
  | .cloud _ _ => true

/-- Segment-list order: `isSegPre a b` iff `a` is a leading run of `b`. -/
def isSegPre : List String → List String → Bool
  | [], _ => true
  | _ :: _, [] => false
  | a :: as, b :: bs => decide (a = b) && isSegPre as bs

/-- Path `q` lies strictly below path `p` (same scheme, `p.segs` a proper
leading run of `q.segs`). -/
def under (q p : CPath) : Bool :=
  decide (q.scheme = p.scheme) && isSegPre p.segs q.segs &&
    decide (p.segs.length < q.segs.length)

/-- Path `q` equals `p` or lies strictly below it. -/
def atUnder (q p : CPath) : Bool := decide (q = p) || under q p

/-- A filesystem entry: a regular file/blob with content and mtime, or an
explicitly created (local) directory. -/
inductive Node where
  | file (content : String) (mtime : Int)
  | dir
  deriving DecidableEq, Repr

/-- Filesystem state: an association list of entries.  Cloud directories are
not stored; they exist by virtue of the entries below them. -/
abbrev FS := List (CPath × Node)

/-- Entry stored at a path, first match wins. -/
def FS.lookup : FS → CPath → Option Node
  | [], _ => none
  | e :: fs, p => if e.1 = p then some e.2 else FS.lookup fs p

/-- Whether some entry lies strictly below `p`. -/
def FS.hasDesc : FS → CPath → Bool
  | [], _ => false
  | e :: fs, p => under e.1 p || FS.hasDesc fs p

/-- Python `path.exists()`: an entry at the path, or (cloud virtual
directory) an entry strictly below it. -/
def fsExists (fs : FS) (p : CPath) : Bool :=
  (fs.lookup p).isSome || fs.hasDesc p

/-- Python `path.is_dir()`: an explicit directory entry, or any entry
strictly below the path. -/
def fsIsDir (fs : FS) (p : CPath) : Bool :=
  decide (fs.lookup p = some Node.dir) || fs.hasDesc p

/-- Remove the entry stored exactly at `p`. -/
def FS.erase (fs : FS) (p : CPath) : FS :=
  fs.filter (fun e => decide (e.1 ≠ p))

/-- Store node `n` at `p`, replacing any previous entry. -/
def FS.set (fs : FS) (p : CPath) (n : Node) : FS :=
  FS.erase fs p ++ [(p, n)]

/-- Remove every entry at or strictly below `p`. -/
def FS.eraseTree (fs : FS) (p : CPath) : FS :=
  fs.filter (fun e => !atUnder e.1 p)

/-- Re-root one entry from the subtree of `src` to the subtree of `dst`. -/
def reRoot (src dst : CPath) (e : CPath × Node) : CPath × Node :=
  (⟨dst.scheme, dst.segs ++ e.1.segs.drop src.segs.length⟩, e.2)

/-- Rename the whole subtree at `src` onto `dst` (the effect of a POSIX
`rename`, used for `Path.replace`): the previous `dst` subtree is
overwritten. -/
def FS.moveTree (fs : FS) (src dst : CPath) : FS :=
  (fs.filter (fun e => !(atUnder e.1 src || atUnder e.1 dst))) ++
    ((fs.filter (fun e => atUnder e.1 src)).map (reRoot src dst))

/-- Python `path.iterdir()`: the distinct immediate children of `p` that are
visible from the stored entries (direct entries and virtual directories). -/
def FS.iterdir (fs : FS) (p : CPath) : List CPath :=
  (fs.filterMap (fun e =>
    if under e.1 p then
      match e.1.segs.get? p.segs.length with
      | some n => some (p.child n)
      | none => none
    else none)).dedup

/-- Create the missing ancestors of `p` and `p` itself as directory entries
(local `mkdir(parents=True, exist_ok=True)`); existing entries are kept. -/
def mkdirParentsLocal (fs : FS) (p : CPath) : FS :=
  fs ++ ((List.range p.segs.length).filterMap (fun i =>
    let q : CPath := ⟨p.scheme, p.segs.take (i + 1)⟩
    if (fs.lookup q).isSome then none else some (q, Node.dir)))

/-- Effect of `path.mkdir(parents=True, exist_ok=True)`: creates directories
locally; on cloud paths it is a no-op, since cloud directories are virtual
(the yunpath layer used by the source accepts mkdir on cloud paths, as the
repository's own cloud-directory tests exercise it unguarded). -/
def mkdirEff (fs : FS) (p : CPath) : FS :=
  match p.scheme with
  | .loc => mkdirParentsLocal fs p
  | .cloud _ _ => fs

/-- Python exceptions relevant to the two commands. -/
inductive Exn where
  | overwriteNewerCloud
  | osErr (msg : String)
  | cloudErr (msg : String)
  | notImplementedErr
  | fuelExhausted
  deriving DecidableEq, Repr

/-- Whether an exception is an `OSError`/`IOError` (the only classes caught
by cp's outer handler). -/
def Exn.isOsError : Exn → Bool
  | .osErr _ => true
  | _ => false

/-- Observable provider/filesystem events, in call order.  `startedCopy` is
an asynchronous server-side copy that has merely been initiated
(Azure `start_copy_from_url`); `copied` and `movedAtomic` are synchronous
operations that have completed when the call returns. -/
inductive Ev where
  | copied (src dst : CPath)
  | movedAtomic (src dst : CPath)
  | startedCopy (src dst : CPath)
  | slept
  | deleted (p : CPath)
  | renamed (src dst : CPath)
  | replacedEv (src dst : CPath)
  | writeAttempt (dst : CPath) (forced : Bool)
  deriving DecidableEq, Repr

/-- Behaviour of the external process environment during one invocation:
`rejectsUnforced` makes every non-forced overwriting cloud write fail with
the "cloud object is newer" signal (`OverwriteNewerCloudError`);
`failWrites` lists destinations whose transfer the provider/OS rejects;
`cwd` is the absolute segment list of the process working directory, the
base against which `pathlib` resolves relative path strings (`Path("")`
is `Path(".")`, the working directory itself). -/
structure Env where
  rejectsUnforced : Bool
  failWrites : List CPath
  cwd : List String
  deriving DecidableEq, Repr

/-- Machine state: provider environment, filesystem, event trace, stderr
lines and stdout lines. -/
structure St where
  env : Env
  fs : FS
  trace : List Ev
  errs : List String
  out : List String
  deriving DecidableEq, Repr

/-- Result of running a command fragment: normal return, `sys.exit(code)`,
or an uncaught Python exception. -/
inductive R (α : Type) where
  | ok (s : St) (a : α)
  | exit (s : St) (code : Nat)
  | exn (s : St) (e : Exn)
  deriving DecidableEq, Repr

/-- The command machine: a state transformer with exit and exceptions. -/
def M (α : Type) : Type := St → R α

/-- Sequencing: exceptions and exits short-circuit (as in Python). -/
def Mbind (m : M α) (f : α → M β) : M β := fun s =>
  match m s with
  | .ok s' a => f a s'
  | .exit s' c => .exit s' c
  | .exn s' e => .exn s' e

instance : Monad M where
  pure a := fun s => .ok s a
  bind := Mbind

/-- Read the current state. -/
def getSt : M St := fun s => .ok s s

/-- Apply a pure update to the filesystem. -/
def modFS (f : FS → FS) : M Unit := fun s => .ok { s with fs := f s.fs } ()

/-- Append an event to the trace. -/
def emit (ev : Ev) : M Unit := fun s => .ok { s with trace := s.trace ++ [ev] } ()

/-- Print a line to standard error. -/
def eprintLn (msg : String) : M Unit := fun s =>
  .ok { s with errs := s.errs ++ [msg] } ()

/-- Print a line to standard output. -/
def printLn (msg : String) : M Unit := fun s =>
  .ok { s with out := s.out ++ [msg] } ()

/-- Python `sys.exit(code)` (raises `SystemExit`, which is not an
`Exception` subclass and so is never caught by the handlers below). -/
def sysExit (code : Nat) : M α := fun s => .exit s code

/-- Raise a Python exception. -/
def raiseExn (e : Exn) : M α := fun s => .exn s e

/-- A `try/except` block: `catches` selects the exception classes handled.
The artificial `fuelExhausted` marker is never caught, so it always
surfaces. -/
def tryE (m : M α) (catches : Exn → Bool) (h : Exn → M α) : M α := fun s =>
  match m s with
  | .exn s' e => if catches e ∧ e ≠ .fuelExhausted then h e s' else .exn s' e
  | r => r

/-- Raise `e` if the environment rejects writes to `dst` (transfer-level
provider/OS failure). -/
def chkFail (dst : CPath) (e : Exn) : M Unit := fun s =>
  if dst ∈ s.env.failWrites then .exn s e else .ok s ()

/-- Raise the "cloud object is newer" rejection for a non-forced cloud
write when the environment is in rejecting mode. -/
def rejectIfUnforced (forced : Bool) : M Unit := fun s =>
  if s.env.rejectsUnforced ∧ forced = false then .exn s .overwriteNewerCloud
  else .ok s ()

/-- Read the file at `p`, raising `e` when there is no regular file there
(the source-side failure of every copying primitive). -/
def srcFileOrRaise (p : CPath) (e : Exn) : M (String × Int) := fun s =>
  match s.fs.lookup p with
  | some (.file c m) => .ok s (c, m)
  | _ => .exn s e

/-- Python `path.stat().st_mtime`; stat on a missing path or a virtual
directory raises `OSError`.  (Directory modification times are not
modelled: no verified property depends on them.) -/
def statMtimeM (p : CPath) : M Int := fun s =>
  match s.fs.lookup p with
  | some (.file _ m) => .ok s m
  | _ => .exn s (.osErr "stat failed")

/-- Render a path the way Python `str(path)` does (segments joined by
slashes, cloud paths with their scheme and bucket). -/
def Provider.schemeStr : Provider → String
  | .gs => "gs"
  | .s3 => "s3"
  | .azure => "az"

/-- String form of a path, for messages. -/
def CPath.render (p : CPath) : String :=
  match p.scheme with
  | .loc => "/" ++ String.intercalate "/" p.segs
  | .cloud pr b =>
      pr.schemeStr ++ "://" ++ b ++ "/" ++ String.intercalate "/" p.segs

/-- GCS `bucket.copy_blob` / S3 `copy_object`: synchronous server-side copy;
completed when the call returns.  Never performs a newer-object check. -/
def nativeCopy (src dst : CPath) : M Unit := do
  chkFail dst (.cloudErr "copy rejected")
  let (c, m) ← srcFileOrRaise src (.cloudErr "source object missing")
  modFS (fun fs => fs.set dst (.file c m))
  emit (.copied src dst)

/-- GCS same-bucket `bucket.move_blob`: atomic server-side rename. -/
def nativeMove (src dst : CPath) : M Unit := do
  chkFail dst (.cloudErr "move rejected")
  let (c, m) ← srcFileOrRaise src (.cloudErr "source object missing")
  modFS (fun fs => (fs.erase src).set dst (.file c m))
  emit (.movedAtomic src dst)

/-- Azure `start_copy_from_url`: initiates an asynchronous server-side copy
and returns immediately.  The destination eventually holds the content (we
record it at once), but no completion is awaited or reported — only a
`startedCopy` event enters the trace, never a `copied` one. -/
def nativeStartCopy (src dst : CPath) : M Unit := do
  chkFail dst (.cloudErr "copy rejected")
  let (c, m) ← srcFileOrRaise src (.cloudErr "source object missing")
  modFS (fun fs => fs.set dst (.file c m))
  emit (.startedCopy src dst)

/-- The `time.sleep(0.5)` in the Azure move path. -/
def sleepBrief : M Unit := emit .slept

/-- Provider blob delete / local `unlink`. -/
def deleteBlob (p : CPath) : M Unit := do
  modFS (fun fs => fs.erase p)
  emit (.deleted p)

/-- cloudpathlib `src.rename(dst)` fallback for cross-provider moves
(downloads, re-uploads, then deletes the source). -/
def renameFallback (src dst : CPath) : M Unit := do
  chkFail dst (.cloudErr "rename rejected")
  let (c, m) ← srcFileOrRaise src (.cloudErr "source object missing")
  modFS (fun fs => (fs.erase src).set dst (.file c m))
  emit (.renamed src dst)

/-- cloudpathlib `src.copy(dst, force_overwrite_to_cloud=force)`: subject to
the provider's newer-object rejection when not forced. -/
def copyCross (src dst : CPath) (forced : Bool) : M Unit := do
  emit (.writeAttempt dst forced)
  rejectIfUnforced forced
  chkFail dst (.cloudErr "copy rejected")
  let (c, m) ← srcFileOrRaise src (.cloudErr "source object missing")
  modFS (fun fs => fs.set dst (.file c m))
  emit (.copied src dst)

/-- cloudpathlib `dst.upload_from(src)` (local → cloud, never forced):
subject to the provider's newer-object rejection; a missing local source is
an `OSError`. -/
def uploadFrom (dst src : CPath) : M Unit := do
  emit (.writeAttempt dst false)
  rejectIfUnforced false
  chkFail dst (.cloudErr "upload rejected")
  let (c, m) ← srcFileOrRaise src (.osErr "No such file or directory")
  modFS (fun fs => fs.set dst (.file c m))
  emit (.copied src dst)

/-- cloudpathlib `src.download_to(dst)` (cloud → local). -/
def downloadTo (src dst : CPath) : M Unit := do
  chkFail dst (.osErr "download rejected")
  let (c, m) ← srcFileOrRaise src (.cloudErr "source object missing")
  modFS (fun fs => fs.set dst (.file c m))
  emit (.copied src dst)

/-- `shutil.copy` / `shutil.copy2` (local → local); copying an existing
file onto itself raises `SameFileError`, an `OSError` subclass (the
`copyfile` same-file guard; when the source is missing the guard's
`samefile` stat fails and the missing source surfaces as the usual
`OSError` instead); a missing or non-regular source is an `OSError`.
(The fresh copy's timestamp carries the source's: no verified property
depends on the timestamp of a new copy.) -/
def shutilCopyPrim (src dst : CPath) : M Unit := do
  let st ← getSt
  if src = dst ∧ (FS.lookup st.fs src).isSome then
    raiseExn (.osErr (src.render ++ " and " ++ dst.render ++
      " are the same file"))
  else do
    chkFail dst (.osErr "copy rejected")
    let (c, m) ← srcFileOrRaise src (.osErr "No such file or directory")
    modFS (fun fs => fs.set dst (.file c m))
    emit (.copied src dst)

/-- `Path.replace` (local → local rename): moves the whole subtree,
overwriting the destination; a missing source is an `OSError`. -/
def replacePrim (src dst : CPath) : M Unit := do
  chkFail dst (.osErr "replace rejected")
  let st ← getSt
  if fsExists st.fs src then do
    modFS (fun fs => fs.moveTree src dst)
    emit (.replacedEv src dst)
  else raiseExn (.osErr "No such file or directory")

/-- `path.unlink()`. -/
def unlinkPrim (p : CPath) : M Unit := deleteBlob p

/-- `path.rmdir()`: removes the entry stored at the path; on a cloud path
the directory is virtual and at most an explicit entry disappears. -/
def rmdirPrim (p : CPath) : M Unit := modFS (fun fs => fs.erase p)

/-- `path.rmtree()` (local recursive delete). -/
def rmtreePrim (p : CPath) : M Unit := modFS (fun fs => fs.eraseTree p)

/-- `path.mkdir(parents=True, exist_ok=True)` as a machine action. -/
def mkdirPrim (p : CPath) : M Unit := modFS (fun fs => mkdirEff fs p)

/-- The `PACKAGE` message prefix from `cloudsh.utils` (that module is not
part of the transfer engine under verification; the prefix is cosmetic). -/
def PACKAGE : String := "cloudsh"

/-- Quote character used by the Python f-strings. -/
def qc : String := "\x27"

/-- Relative parts contributed by `destination / str(src).lstrip("/")` in
`--parents` mode: pathlib splits the joined string on slashes. -/
def CPath.relParts (p : CPath) : List String :=
  match p.scheme with
  | .loc => p.segs
  | .cloud pr b => [pr.schemeStr ++ ":", b] ++ p.segs

/-- `destination / str(src_path).lstrip("/")`. -/
def CPath.joinRel (dest src : CPath) : CPath :=
  ⟨dest.scheme, dest.segs ++ src.relParts⟩

/-- cp message: destination parent missing (line 110). -/
def cpCannotCreateMsg (dst : CPath) : String :=
  PACKAGE ++ " cp: cannot create " ++ qc ++ dst.render ++ qc ++
    ": No such file or directory"

/-- cp message: destination directory, source not (line 129). -/
def cpOverwriteDirMsg (dst : CPath) : String :=
  PACKAGE ++ " cp: cannot overwrite directory " ++ qc ++ dst.render ++ qc ++
    " with non-directory"

/-- cp message: directory source without `-r` (line 138). -/
def cpNoRecursiveMsg (src : CPath) : String :=
  PACKAGE ++ " cp: -r not specified; omitting directory " ++ qc ++
    src.render ++ qc

/-- cp message: copy failure caught by the outer handler (line 187). -/
def cpCannotCopyMsg (src dst : CPath) (reason : String) : String :=
  PACKAGE ++ " cp: cannot copy " ++ qc ++ src.render ++ qc ++ " to " ++ qc ++
    dst.render ++ qc ++ ": " ++ reason

/-- cp message: multiple sources and non-directory target (line 207). -/
def cpTargetNotDirMsg : String :=
  PACKAGE ++ " cp: target must be a directory when copying multiple files"

/-- cp message: `--parents` with a non-directory destination (line 213). -/
def cpParentsNotDirMsg : String :=
  PACKAGE ++ " cp: with --parents, destination must be a directory"

/-- cp message: `--parents` between cloud paths (line 227). -/
def cpParentsCloudMsg : String :=
  PACKAGE ++ " cp: cannot preserve directory structure when copying " ++
    "between cloud paths"

/-- mv message: destination directory, source not (line 162). -/
def mvOverwriteDirMsg (dst : CPath) : String :=
  PACKAGE ++ " mv: cannot overwrite directory " ++ qc ++ dst.render ++ qc ++
    " with non-directory"

/-- mv message: move failure caught by a handler (lines 207 and 214). -/
def mvCannotMoveMsg (src dst : CPath) (reason : String) : String :=
  PACKAGE ++ " mv: cannot move " ++ qc ++ src.render ++ qc ++ " to " ++ qc ++
    dst.render ++ qc ++ ": " ++ reason

/-- mv message: multiple sources and non-directory target (line 241). -/
def mvTargetNotDirMsg (destination : String) : String :=
  PACKAGE ++ " mv: target " ++ qc ++ destination ++ qc ++ " is not a directory"

/-- mv message: missing source (line 250). -/
def mvCannotStatMsg (src : String) : String :=
  PACKAGE ++ " mv: cannot stat " ++ qc ++ src ++ qc ++
    ": No such file or directory"

/-- mv verbose line (line 204). -/
def mvRenamedMsg (src dst : CPath) : String :=
  "renamed " ++ qc ++ src.render ++ qc ++ " -> " ++ qc ++ dst.render ++ qc

/-- cp verbose line for a file copy (line 154). -/
def cpVerboseMsg (src dst : CPath) : String :=
  qc ++ src.render ++ qc ++ " -> " ++ qc ++ dst.render ++ qc

/-- cp verbose line for a created directory (line 146). -/
def cpCreatedDirMsg (dst : CPath) : String :=
  "created directory " ++ qc ++ dst.render ++ qc

/-- Python `str.rstrip("/")` on the character list. -/
def dropTrailingSlashes (l : List Char) : List Char :=
  (l.reverse.dropWhile (fun c => c == '/')).reverse

/-- Python `s.rstrip("/")`. -/
def rstripSlashes (t : String) : String := String.mk (dropTrailingSlashes t.data)

/-- Python truthiness of an optional string argument (`None` and the empty
string are falsy). -/
def isTruthy : Option String → Bool
  | none => false
  | some t => decide (t ≠ "")

/-- Helper of `splitOnSlash`: accumulates the current segment (reversed). -/
def splitGo : List Char → List Char → List String
  | [], acc => [String.mk acc.reverse]
  | c :: rest, acc =>
      if c = '/' then String.mk acc.reverse :: splitGo rest []
      else splitGo rest (c :: acc)

/-- Python `s.split("/")` on a character list. -/
def splitOnSlash (l : List Char) : List String := splitGo l []

/-- Path components of a slash-separated character list, empty components
collapsed (the effect of pathlib/cloudpathlib segment parsing). -/
def segsOf (l : List Char) : List String :=
  (splitOnSlash l).filter (fun s => decide (s ≠ ""))

/-- Cloud path from the characters following the `<scheme>://`: the first
component is the bucket/container. -/
def cloudOf (pr : Provider) (l : List Char) : CPath :=
  match splitOnSlash l with
  | b :: segs => ⟨.cloud pr b, segs.filter (fun s => decide (s ≠ ""))⟩
  | [] => ⟨.cloud pr "", []⟩

/-- Parse of a cloud URL or an absolute local path string: a `gs://`,
`s3://` or `az://` URL becomes a cloud path, anything else a local path
whose segments are read from the string; empty segments collapse.  The
full `yunpath.AnyPath` semantics of a general (possibly relative)
argument string is `resolvePath` below. -/
def parsePath (t : String) : CPath :=
  match t.data with
  | 'g' :: 's' :: ':' :: '/' :: '/' :: rest => cloudOf .gs rest
  | 's' :: '3' :: ':' :: '/' :: '/' :: rest => cloudOf .s3 rest
  | 'a' :: 'z' :: ':' :: '/' :: '/' :: rest => cloudOf .azure rest
  | l => ⟨.loc, segsOf l⟩

/-- Whether the argument string is an absolute local path (leading
slash). -/
def startsSlash (t : String) : Bool :=
  match t.data with
  | '/' :: _ => true
  | _ => false

/-- The path resolution performed by `yunpath.AnyPath` on an argument
string, against the process working directory: cloud URLs and absolute
local paths stand for themselves, every other string — including the
empty string, since Python `Path("")` is `Path(".")` — is a local path
relative to the working directory. -/
def resolvePath (cwd : List String) (t : String) : CPath :=
  if startsSlash t ∨ (parsePath t).isCloud then parsePath t
  else ⟨.loc, cwd ++ segsOf t.data⟩

/-- A cloud URL resolves independently of the working directory. -/
theorem resolvePath_isCloud (cwd : List String) (t : String)
    (h : (parsePath t).isCloud = true) : resolvePath cwd t = parsePath t :=
  by simp [resolvePath, h]

/-- An absolute local path string resolves independently of the working
directory. -/
theorem resolvePath_abs (cwd : List String) (t : String)
    (h : startsSlash t = true) : resolvePath cwd t = parsePath t := by
  simp [resolvePath, h]

/-- Argument namespace of the cp command (the fields of the `argx`
namespace the tests construct; cp has no update flag).
`interactiveAnswer` models the user's reply to the overwrite prompt. -/
structure CpArgs where
  SOURCE : List String
  DEST : String
  recursive : Bool
  interactive : Bool
  force : Bool
  no_clobber : Bool
  verbose : Bool
  preserve : Bool
  target_directory : Option String
  no_target_directory : Bool
  parents : Bool
  interactiveAnswer : Bool
  deriving DecidableEq, Repr

/-- Argument namespace of the mv command.  `update` is `none` for the
Python values `None`/`False`, otherwise the choice string. -/
structure MvArgs where
  SOURCE : List String
  DEST : String
  u : Bool
  interactive : Bool
  no_clobber : Bool
  verbose : Bool
  target_directory : Option String
  no_target_directory : Bool
  update : Option String
  interactiveAnswer : Bool
  deriving DecidableEq, Repr

/-- Reason string of an exception (Python `str(e)`). -/
def reasonOf : Exn → String
  | .overwriteNewerCloud => "cloud object is newer"
  | .osErr m => m
  | .cloudErr m => m
  | .notImplementedErr => "not implemented"
  | .fuelExhausted => "fuel"

/-- `_cloud_to_cloud_copy` (cp.py lines 28-95): native server-side copy for
same-provider pairs, cloudpathlib `copy` otherwise. -/
def cloudToCloudCopy (src dst : CPath) (forced : Bool) : M Unit :=
  match src.scheme, dst.scheme with
  | .cloud .gs _, .cloud .gs _ => nativeCopy src dst
  | .cloud .s3 _, .cloud .s3 _ => nativeCopy src dst
  | .cloud .azure _, .cloud .azure _ => nativeStartCopy src dst
  | _, _ => copyCross src dst forced

/-- The copy dispatch of `_copy_path` (cp.py lines 156-175). -/
def copyDispatch (src dst : CPath) (args : CpArgs) : M Unit :=
  if src.isCloud then
    if dst.isCloud then cloudToCloudCopy src dst args.force
    else downloadTo src dst
  else if dst.isCloud then uploadFrom dst src
  else shutilCopyPrim src dst

/-- The `except OverwriteNewerCloudError` handler of `_copy_path`
(cp.py lines 176-183). -/
def copyNewerHandler (src dst : CPath) (args : CpArgs) : M Unit :=
  if args.force then
    if src.isCloud && dst.isCloud then cloudToCloudCopy src dst true
    else copyCross src dst true
  else raiseExn .overwriteNewerCloud

mutual

/-- `_copy_path` (cp.py lines 98-189).  Returns the (possibly mutated)
argument namespace: `args.force = True` on line 126 is visible to later
copies of the same invocation. -/
def copyPath : Nat → CpArgs → CPath → CPath → M CpArgs
  | 0, _, _, _ => raiseExn .fuelExhausted
  | fuel + 1, args0, src, dst0 => do
      let st ← getSt
      -- line 108: the destination's parent must exist
      if ¬ fsExists st.fs dst0.parent then do
        eprintLn (cpCannotCreateMsg dst0)
        sysExit 1
      else do
        -- line 117: existing directory destination gets the source's name
        let dst :=
          if fsExists st.fs dst0 ∧ fsIsDir st.fs dst0 ∧ ¬ fsIsDir st.fs src
          then dst0.child src.name else dst0
        -- lines 121-133: conflict resolution
        let r ←
          (if fsExists st.fs dst then
            if args0.no_clobber then pure (false, args0)
            else if args0.interactive ∧ ¬ args0.interactiveAnswer then
              pure (false, args0)
            else do
              let a := { args0 with force := true }
              if fsIsDir st.fs dst ∧ ¬ fsIsDir st.fs src then do
                eprintLn (cpOverwriteDirMsg dst)
                sysExit 1
              else pure (true, a)
          else pure (true, args0))
        if ¬ r.1 then pure r.2
        else
          -- lines 135-189, the outer handler catching OSError/IOError
          tryE
            (if fsIsDir st.fs src then
              if ¬ r.2.recursive then do
                eprintLn (cpNoRecursiveMsg src)
                sysExit 1
              else do
                mkdirPrim dst
                (if r.2.verbose then printLn (cpCreatedDirMsg dst)
                 else pure ())
                let st2 ← getSt
                copyChildren fuel dst r.2 (st2.fs.iterdir src)
            else do
              (if r.2.verbose then printLn (cpVerboseMsg src dst)
               else pure ())
              tryE (copyDispatch src dst r.2)
                (fun e => decide (e = .overwriteNewerCloud))
                (fun _ => copyNewerHandler src dst r.2)
              pure r.2)
            Exn.isOsError
            (fun e => do
              eprintLn (cpCannotCopyMsg src dst (reasonOf e))
              sysExit 1)

termination_by structural fuel _ _ _ => fuel

/-- The child loop of `_copy_path`'s directory branch (cp.py lines
149-151), threading the mutable namespace. -/
def copyChildren : Nat → CPath → CpArgs → List CPath → M CpArgs
  | 0, _, _, _ => raiseExn .fuelExhausted
  | _ + 1, _, args, [] => pure args
  | fuel + 1, dst, args, item :: rest => do
      let args2 ← copyPath fuel args item (dst.child item.name)
      copyChildren fuel dst args2 rest
termination_by structural fuel _ _ _ => fuel

end


/-- `_cloud_to_cloud_move` (mv.py lines 25-105): GCS same-bucket moves use
the atomic `move_blob`; GCS cross-bucket and S3 do copy-then-delete; Azure
starts an asynchronous copy, sleeps half a second, and deletes the source;
cross-provider pairs fall back to cloudpathlib `rename`. -/
def cloudToCloudMove (src dst : CPath) : M Unit :=
  match src.scheme, dst.scheme with
  | .cloud .gs b1, .cloud .gs b2 =>
      if b1 = b2 then nativeMove src dst
      else do
        nativeCopy src dst
        deleteBlob src
  | .cloud .s3 _, .cloud .s3 _ => do
      nativeCopy src dst
      deleteBlob src
  | .cloud .azure _, .cloud .azure _ => do
      nativeStartCopy src dst
      sleepBrief
      deleteBlob src
  | _, _ => renameFallback src dst

/-- Whether the `--update=older` comparison of `_move_cloud_dir`
(mv.py lines 119-122) says to skip the child; the stats here are not
wrapped in a `try`. -/
def cdStatSkip (dstItem item : CPath) : M Bool := do
  let dm ← statMtimeM dstItem
  let sm ← statMtimeM item
  pure (decide (dm ≥ sm))

mutual

/-- `_move_cloud_dir` (mv.py lines 108-129): recursively relocate a cloud
directory, then remove the (now empty, virtual) source directory. -/
def moveCloudDir : Nat → MvArgs → CPath → CPath → M Unit
  | 0, _, _, _ => raiseExn .fuelExhausted
  | fuel + 1, args, src, dst => do
      mkdirPrim dst
      let st ← getSt
      moveCDChildren fuel args dst (st.fs.iterdir src)
      rmdirPrim src
termination_by structural fuel _ _ _ => fuel

/-- The child loop of `_move_cloud_dir` (mv.py lines 111-127). -/
def moveCDChildren : Nat → MvArgs → CPath → List CPath → M Unit
  | 0, _, _, _ => raiseExn .fuelExhausted
  | _ + 1, _, _, [] => pure ()
  | fuel + 1, args, dst, item :: rest => do
      let dstItem := dst.child item.name
      let st ← getSt
      (if fsIsDir st.fs item then moveCloudDir fuel args item dstItem
       else do
        let go ←
          (if fsExists st.fs dstItem then
            if args.no_clobber then pure false
            else do
              let skip ←
                (if args.update = some "older" then cdStatSkip dstItem item
                 else pure false)
              if skip then pure false
              else do
                unlinkPrim dstItem
                pure true
          else pure true)
        if go then cloudToCloudMove item dstItem else pure ())
      moveCDChildren fuel args dst rest
termination_by structural fuel _ _ _ => fuel

end

/-- Whether the `-u` / `--update=older` check of `_move_path`
(mv.py lines 150-155) says to return early; stat failures fall through
(`except (OSError, AttributeError): pass`). -/
def mvUpdateSkip (args : MvArgs) (src dst : CPath) : M Bool := fun s =>
  if args.u ∨ args.update = some "older" then
    match s.fs.lookup dst, s.fs.lookup src with
    | some (.file _ dm), some (.file _ sm) => .ok s (decide (dm ≥ sm))
    | _, _ => .ok s false
  else .ok s false

mutual

/-- `_move_path` (mv.py lines 132-217). -/
def movePath : Nat → MvArgs → CPath → CPath → M Unit
  | 0, _, _, _ => raiseExn .fuelExhausted
  | fuel + 1, args, src, dst0 =>
      -- the outer handler (lines 213-217) catches any Exception
      tryE
        (do
          -- lines 135-138: create the destination's parent when supported
          tryE (mkdirPrim dst0.parent)
            (fun e => decide (e = .notImplementedErr)) (fun _ => pure ())
          let st ← getSt
          -- lines 140-141: existing directory destination gets the name
          let dst :=
            if fsExists st.fs dst0 ∧ fsIsDir st.fs dst0
            then dst0.child src.name else dst0
          -- lines 144-166: update modes and conflicts
          let go ←
            (if fsExists st.fs dst then
              if args.update = some "none" ∨ args.no_clobber then pure false
              else do
                let skip ← mvUpdateSkip args src dst
                if skip then pure false
                else if args.interactive ∧ ¬ args.interactiveAnswer then
                  pure false
                else if fsIsDir st.fs dst ∧ ¬ fsIsDir st.fs src then do
                  eprintLn (mvOverwriteDirMsg dst)
                  sysExit 1
                else pure true
            else pure true)
          if go then
            -- lines 168-211: the dispatch with its own catch-all handler
            tryE
              (do
                let st2 ← getSt
                (if src.isCloud then
                  if dst.isCloud then
                    if fsIsDir st2.fs src then moveCloudDir fuel args src dst
                    else do
                      (if fsExists st2.fs dst then unlinkPrim dst
                       else pure ())
                      cloudToCloudMove src dst
                  else
                    if fsIsDir st2.fs src then do
                      mkdirPrim dst
                      moveChildren fuel args dst (st2.fs.iterdir src)
                      rmdirPrim src
                    else do
                      downloadTo src dst
                      unlinkPrim src
                else
                  if dst.isCloud then
                    if fsIsDir st2.fs src then do
                      mkdirPrim dst
                      moveChildren fuel args dst (st2.fs.iterdir src)
                      rmtreePrim src
                    else do
                      uploadFrom dst src
                      unlinkPrim src
                  else replacePrim src dst)
                if args.verbose then printLn (mvRenamedMsg src dst)
                else pure ())
              (fun _ => true)
              (fun e => do
                eprintLn (mvCannotMoveMsg src dst (reasonOf e))
                sysExit 1)
          else pure ())
        (fun _ => true)
        (fun e => do
          eprintLn (mvCannotMoveMsg src dst0 (reasonOf e))
          sysExit 1)
termination_by structural fuel _ _ _ => fuel

/-- The per-child recursion of `_move_path`'s cloud↔local directory
branches (mv.py lines 182-183 and 193-194). -/
def moveChildren : Nat → MvArgs → CPath → List CPath → M Unit
  | 0, _, _, _ => raiseExn .fuelExhausted
  | _ + 1, _, _, [] => pure ()
  | fuel + 1, args, dst, item :: rest => do
      movePath fuel args item (dst.child item.name)
      moveChildren fuel args dst rest
termination_by structural fuel _ _ _ => fuel

end

/-- The per-source loop of cp's `run` (cp.py lines 220-258), threading the
mutable namespace.  `tdGiven` and `singleSrc` are the loop-invariant
`args.target_directory` truthiness and `len(sources) == 1`. -/
def cpLoop (fuel : Nat) (dest : CPath) (tdGiven singleSrc : Bool) :
    CpArgs → List String → M CpArgs
  | args, [] => pure args
  | args, s :: rest => do
      let st ← getSt
      let srcPath := resolvePath st.env.cwd (rstripSlashes s)
      if srcPath.isCloud ∧ dest.isCloud ∧ args.parents then do
        eprintLn cpParentsCloudMsg
        sysExit 1
      else do
        let dstPath :=
          if ¬ tdGiven ∧ singleSrc ∧ ¬ args.no_target_directory then
            if fsExists st.fs dest ∧ fsIsDir st.fs dest then
              if args.parents then dest.joinRel srcPath
              else dest.child srcPath.name
            else dest
          else
            if args.parents then dest.joinRel srcPath
            else dest.child srcPath.name
        let args2 ← copyPath fuel args srcPath dstPath
        cpLoop fuel dest tdGiven singleSrc args2 rest

/-- cp's `run` (cp.py lines 192-258). -/
def cpRun (fuel : Nat) (args : CpArgs) : M Unit := do
  let st0 ← getSt
  let destination ←
    (if isTruthy args.target_directory then do
      let t := resolvePath st0.env.cwd
        (rstripSlashes (args.target_directory.getD ""))
      let st ← getSt
      (if ¬ fsExists st.fs t then mkdirPrim t else pure ())
      pure t
    else pure (resolvePath st0.env.cwd (rstripSlashes args.DEST)))
  let st ← getSt
  (if args.SOURCE.length > 1 ∧
      ¬ (isTruthy args.target_directory ∨ fsIsDir st.fs destination) then do
    eprintLn cpTargetNotDirMsg
    sysExit 1
  else pure ())
  (if args.parents ∧ ¬ fsIsDir st.fs destination then do
    eprintLn cpParentsNotDirMsg
    sysExit 1
  else pure ())
  let _ ← cpLoop fuel destination (isTruthy args.target_directory)
    (args.SOURCE.length == 1) args args.SOURCE
  pure ()

/-- The per-source loop of mv's `run` (mv.py lines 246-260); the incoming
source strings were already stripped of trailing slashes (line 226). -/
def mvLoop (fuel : Nat) (args : MvArgs) (dstPath : CPath) :
    List String → M Unit
  | [] => pure ()
  | s :: rest => do
      let st ← getSt
      let srcPath := resolvePath st.env.cwd s
      if ¬ fsExists st.fs srcPath then do
        eprintLn (mvCannotStatMsg s)
        sysExit 1
      else do
        let dst :=
          if fsExists st.fs dstPath ∧ fsIsDir st.fs dstPath ∧
              ¬ args.no_target_directory
          then dstPath.child srcPath.name else dstPath
        movePath fuel args srcPath dst
        mvLoop fuel args dstPath rest

/-- mv's `run` (mv.py lines 220-260). -/
def mvRun (fuel : Nat) (args0 : MvArgs) : M Unit := do
  let st0 ← getSt
  -- line 222: -u implies --update=older
  let args := if args0.u then { args0 with update := some "older" } else args0
  let sources := args.SOURCE.map rstripSlashes
  let dd ←
    (if isTruthy args.target_directory then do
      let d := rstripSlashes (args.target_directory.getD "")
      let p := resolvePath st0.env.cwd d
      let st ← getSt
      (if ¬ fsExists st.fs p then mkdirPrim p else pure ())
      pure (d, p)
    else pure (rstripSlashes args.DEST,
      resolvePath st0.env.cwd (rstripSlashes args.DEST)))
  let st ← getSt
  (if sources.length > 1 ∧
      ¬ (isTruthy args.target_directory ∨ fsIsDir st.fs dd.2) then do
    eprintLn (mvTargetNotDirMsg dd.1)
    sysExit 1
  else pure ())
  mvLoop fuel args dd.2 sources

/-! Reduction lemmas for the machine. -/

theorem bind_app (m : M α) (f : α → M β) (s : St) :
    (m >>= f) s =
      match m s with
      | .ok s' a => f a s'
      | .exit s' c => .exit s' c
      | .exn s' e => .exn s' e := rfl

theorem pure_app (a : α) (s : St) : (pure a : M α) s = .ok s a := rfl

theorem getSt_app (s : St) : getSt s = .ok s s := rfl

theorem modFS_app (f : FS → FS) (s : St) :
    modFS f s = .ok { s with fs := f s.fs } () := rfl

theorem emit_app (ev : Ev) (s : St) :
    emit ev s = .ok { s with trace := s.trace ++ [ev] } () := rfl

theorem eprintLn_app (msg : String) (s : St) :
    eprintLn msg s = .ok { s with errs := s.errs ++ [msg] } () := rfl

theorem printLn_app (msg : String) (s : St) :
    printLn msg s = .ok { s with out := s.out ++ [msg] } () := rfl

theorem sysExit_app (c : Nat) (s : St) : (sysExit c : M α) s = .exit s c := rfl

theorem raiseExn_app (e : Exn) (s : St) : (raiseExn e : M α) s = .exn s e := rfl

theorem tryE_app (m : M α) (c : Exn → Bool) (h : Exn → M α) (s : St) :
    tryE m c h s =
      match m s with
      | .exn s' e => if c e ∧ e ≠ .fuelExhausted then h e s' else .exn s' e
      | r => r := rfl

/-! Lemmas about the filesystem operations. -/

theorem lookup_append (fs gs : FS) (q : CPath) :
    FS.lookup (fs ++ gs) q = (FS.lookup fs q).or (FS.lookup gs q) := by
  induction fs with
  | nil => simp [FS.lookup]
  | cons e fs ih =>
      by_cases h : e.1 = q
      · simp [FS.lookup, h]
      · simp [FS.lookup, h, ih]

theorem hasDesc_append (fs gs : FS) (q : CPath) :
    FS.hasDesc (fs ++ gs) q = (FS.hasDesc fs q || FS.hasDesc gs q) := by
  induction fs with
  | nil => simp [FS.hasDesc]
  | cons e fs ih => simp [FS.hasDesc, ih, Bool.or_assoc]

theorem lookup_of_all_ne {gs : FS} {q : CPath} (h : ∀ e ∈ gs, e.1 ≠ q) :
    FS.lookup gs q = none := by
  induction gs with
  | nil => rfl
  | cons e gs ih =>
      have h1 : e.1 ≠ q := h e (by simp)
      simp only [FS.lookup, if_neg h1]
      exact ih (fun e' he' => h e' (by simp [he']))

theorem hasDesc_of_all_not_under {gs : FS} {q : CPath}
    (h : ∀ e ∈ gs, under e.1 q = false) : FS.hasDesc gs q = false := by
  induction gs with
  | nil => rfl
  | cons e gs ih =>
      simp only [FS.hasDesc, Bool.or_eq_false_iff]
      exact ⟨h e (by simp), ih (fun e' he' => h e' (by simp [he']))⟩

theorem lookup_erase_self (fs : FS) (p : CPath) :
    FS.lookup (fs.erase p) p = none := by
  induction fs with
  | nil => rfl
  | cons e fs ih =>
      by_cases h : e.1 = p
      · simpa [FS.erase, List.filter, h] using ih
      · simpa [FS.erase, List.filter, h, FS.lookup] using ih

theorem lookup_erase_ne (fs : FS) {p q : CPath} (h : q ≠ p) :
    FS.lookup (fs.erase p) q = FS.lookup fs q := by
  induction fs with
  | nil => rfl
  | cons e fs ih =>
      by_cases h1 : e.1 = p
      · have h3 : e.1 ≠ q := by rw [h1]; exact fun hh => h hh.symm
        rw [show FS.lookup (e :: fs) q = FS.lookup fs q by
          simp [FS.lookup, h3]]
        simpa [FS.erase, List.filter, h1] using ih
      · by_cases h2 : e.1 = q
        · simp [FS.erase, List.filter, h1, FS.lookup, h2, h]
        · rw [show FS.lookup (e :: fs) q = FS.lookup fs q by
            simp [FS.lookup, h2]]
          simpa [FS.erase, List.filter, h1, FS.lookup, h2] using ih

theorem lookup_set_self (fs : FS) (p : CPath) (n : Node) :
    FS.lookup (fs.set p n) p = some n := by
  simp [FS.set, lookup_append, lookup_erase_self, FS.lookup, Option.or]

theorem lookup_set_ne (fs : FS) {p q : CPath} (n : Node) (h : q ≠ p) :
    FS.lookup (fs.set p n) q = FS.lookup fs q := by
  simp only [FS.set, lookup_append, lookup_erase_ne fs h]
  cases hl : FS.lookup fs q with
  | none => simp [FS.lookup, if_neg (fun hh => h hh.symm : ¬ p = q), Option.or]
  | some n' => simp [Option.or]

theorem hasDesc_filter_false {fs : FS} (f : CPath × Node → Bool) {q : CPath}
    (h : FS.hasDesc fs q = false) : FS.hasDesc (fs.filter f) q = false := by
  induction fs with
  | nil => rfl
  | cons e fs ih =>
      simp only [FS.hasDesc, Bool.or_eq_false_iff] at h
      by_cases hf : f e
      · simpa [List.filter, hf, FS.hasDesc, h.1] using ih h.2
      · simpa [List.filter, hf] using ih h.2

theorem hasDesc_erase_false {fs : FS} {p q : CPath}
    (h : FS.hasDesc fs q = false) : FS.hasDesc (fs.erase p) q = false :=
  hasDesc_filter_false _ h

theorem hasDesc_set_false {fs : FS} {p q : CPath} {n : Node}
    (h : FS.hasDesc fs q = false) (hu : under p q = false) :
    FS.hasDesc (fs.set p n) q = false := by
  simp [FS.set, hasDesc_append, hasDesc_erase_false h, FS.hasDesc, hu]

theorem lookup_filter_none (fs : FS) (f : CPath × Node → Bool) (q : CPath)
    (h : ∀ n, f (q, n) = false) : FS.lookup (fs.filter f) q = none := by
  induction fs with
  | nil => rfl
  | cons e fs ih =>
      by_cases hf : f e
      · have : e.1 ≠ q := by
          intro hq
          have : f e = false := by
            have he : e = (q, e.2) := by
              cases e; simp_all
            rw [he]; exact h e.2
          simp [this] at hf
        simpa [List.filter, hf, FS.lookup, this] using ih
      · simpa [List.filter, hf] using ih

/-! Geometry of paths. -/

theorem isSegPre_iff (a b : List String) : isSegPre a b = true ↔ a <+: b := by
  induction a generalizing b with
  | nil => simp [isSegPre]
  | cons x xs ih =>
      cases b with
      | nil => simp [isSegPre]
      | cons y ys =>
          simp [isSegPre, List.cons_prefix_cons, ih, Bool.and_eq_true,
            decide_eq_true_eq]

theorem under_iff {q p : CPath} :
    under q p = true ↔
      q.scheme = p.scheme ∧ p.segs <+: q.segs ∧
        p.segs.length < q.segs.length := by
  simp [under, Bool.and_eq_true, decide_eq_true_eq, isSegPre_iff, and_assoc]

theorem under_length {q p : CPath} (h : under q p = true) :
    p.segs.length < q.segs.length := (under_iff.mp h).2.2

theorem under_child_self (p : CPath) (n : String) : under (p.child n) p = true := by
  refine under_iff.mpr ⟨rfl, ⟨[n], rfl⟩, by simp [CPath.child]⟩

theorem not_under_of_le_length {q p : CPath}
    (h : q.segs.length ≤ p.segs.length) : under q p = false := by
  cases hu : under q p
  · rfl
  · exact absurd (under_length hu) (by omega)

theorem atUnder_self (p : CPath) : atUnder p p = true := by
  simp [atUnder]

/-! Lemmas about `mkdirParentsLocal` and `mkdirEff`. -/

theorem mkLocal_mem {fs : FS} {p : CPath} {e : CPath × Node}
    (h : e ∈ ((List.range p.segs.length).filterMap (fun i =>
      let q : CPath := ⟨p.scheme, p.segs.take (i + 1)⟩
      if (fs.lookup q).isSome then none else some (q, Node.dir)))) :
    ∃ i < p.segs.length, e = (⟨p.scheme, p.segs.take (i + 1)⟩, Node.dir) := by
  rcases List.mem_filterMap.mp h with ⟨i, hi, he⟩
  refine ⟨i, List.mem_range.mp hi, ?_⟩
  by_cases hl : (fs.lookup ⟨p.scheme, p.segs.take (i + 1)⟩).isSome
  · simp [hl] at he
  · simp [hl] at he
    exact he.symm

theorem mkLocal_created_length {fs : FS} {p : CPath} {e : CPath × Node}
    (h : e ∈ ((List.range p.segs.length).filterMap (fun i =>
      let q : CPath := ⟨p.scheme, p.segs.take (i + 1)⟩
      if (fs.lookup q).isSome then none else some (q, Node.dir)))) :
    e.1.segs.length ≤ p.segs.length := by
  rcases mkLocal_mem h with ⟨i, hi, he⟩
  subst he
  simp [List.length_take]

theorem mkLocal_lookup_deeper (fs : FS) {p q : CPath}
    (h : p.segs.length < q.segs.length) :
    FS.lookup (mkdirParentsLocal fs p) q = FS.lookup fs q := by
  rw [mkdirParentsLocal, lookup_append]
  have hnone : FS.lookup ((List.range p.segs.length).filterMap (fun i =>
      let qq : CPath := ⟨p.scheme, p.segs.take (i + 1)⟩
      if (fs.lookup qq).isSome then none else some (qq, Node.dir))) q =
        none := by
    refine lookup_of_all_ne (fun e he hq => ?_)
    have := mkLocal_created_length he
    rw [hq] at this
    omega
  rw [hnone]
  cases hl : FS.lookup fs q <;> simp [Option.or]

theorem mkLocal_hasDesc_deeper (fs : FS) {p q : CPath}
    (h : p.segs.length ≤ q.segs.length) :
    FS.hasDesc (mkdirParentsLocal fs p) q = FS.hasDesc fs q := by
  rw [mkdirParentsLocal, hasDesc_append]
  have hnone : FS.hasDesc ((List.range p.segs.length).filterMap (fun i =>
      let qq : CPath := ⟨p.scheme, p.segs.take (i + 1)⟩
      if (fs.lookup qq).isSome then none else some (qq, Node.dir))) q =
        false := by
    refine hasDesc_of_all_not_under (fun e he => ?_)
    exact not_under_of_le_length (le_trans (mkLocal_created_length he) h)
  rw [hnone]
  simp

theorem mkLocal_lookup_isSome (fs : FS) {p q : CPath}
    (h : (FS.lookup fs q).isSome) :
    FS.lookup (mkdirParentsLocal fs p) q = FS.lookup fs q := by
  rw [mkdirParentsLocal, lookup_append]
  cases hl : FS.lookup fs q with
  | none => rw [hl] at h; simp at h
  | some n => simp [Option.or]

theorem mkEff_lookup_deeper (fs : FS) {p q : CPath}
    (h : p.segs.length < q.segs.length) :
    FS.lookup (mkdirEff fs p) q = FS.lookup fs q := by
  rw [mkdirEff]
  cases p.scheme with
  | loc => exact mkLocal_lookup_deeper fs h
  | cloud pr b => rfl

theorem mkEff_hasDesc_deeper (fs : FS) {p q : CPath}
    (h : p.segs.length ≤ q.segs.length) :
    FS.hasDesc (mkdirEff fs p) q = FS.hasDesc fs q := by
  rw [mkdirEff]
  cases p.scheme with
  | loc => exact mkLocal_hasDesc_deeper fs h
  | cloud pr b => rfl

theorem parent_length {p : CPath} (h : p.segs ≠ []) :
    p.parent.segs.length < p.segs.length := by
  simp only [CPath.parent, List.length_dropLast]
  have := List.length_pos.mpr h
  omega

/-! Lemmas about `FS.moveTree` (the effect of `Path.replace`). -/

theorem hasDesc_of_mem_under {fs : FS} {e : CPath × Node} {p : CPath}
    (hm : e ∈ fs) (hu : under e.1 p = true) : FS.hasDesc fs p = true := by
  induction fs with
  | nil => simp at hm
  | cons x fs ih =>
      rcases List.mem_cons.mp hm with hx | hx
      · subst hx; simp [FS.hasDesc, hu]
      · simp [FS.hasDesc, ih hx]

theorem atUnder_eq_of_no_desc {fs : FS} {e : CPath × Node} {p : CPath}
    (hd : FS.hasDesc fs p = false) (hm : e ∈ fs)
    (ha : atUnder e.1 p = true) : e.1 = p := by
  rw [atUnder] at ha
  rcases Bool.or_eq_true_iff.mp ha with h | h
  · exact of_decide_eq_true h
  · rw [hasDesc_of_mem_under hm h] at hd
    simp at hd

theorem lookup_mapped_filter (src dst : CPath) : ∀ fs : FS,
    FS.hasDesc fs src = false →
    FS.lookup ((fs.filter (fun e => atUnder e.1 src)).map (reRoot src dst))
      dst = FS.lookup fs src := by
  intro fs
  induction fs with
  | nil => intro _; rfl
  | cons e fs ih =>
      intro hd
      simp only [FS.hasDesc, Bool.or_eq_false_iff] at hd
      by_cases he : e.1 = src
      · have ha : atUnder e.1 src = true := by simp [atUnder, he]
        rw [show (e :: fs).filter (fun e => atUnder e.1 src) =
            e :: fs.filter (fun e => atUnder e.1 src) by
          simp [List.filter, ha]]
        rw [show FS.lookup (e :: fs) src = some e.2 by
          simp [FS.lookup, he]]
        have hre : reRoot src dst e = (dst, e.2) := by
          cases e with
          | mk e1 e2 => simp [reRoot] at *; simp [he, List.drop_length]
        simp [List.map, hre, FS.lookup]
      · have ha : atUnder e.1 src = false := by
          simp [atUnder, he, hd.1]
        rw [show (e :: fs).filter (fun e => atUnder e.1 src) =
            fs.filter (fun e => atUnder e.1 src) by
          simp [List.filter, ha]]
        rw [show FS.lookup (e :: fs) src = FS.lookup fs src by
          simp [FS.lookup, he]]
        exact ih hd.2

theorem moveTree_lookup_dst {fs : FS} {src dst : CPath}
    (hd : FS.hasDesc fs src = false) :
    FS.lookup (fs.moveTree src dst) dst = FS.lookup fs src := by
  rw [FS.moveTree, lookup_append]
  have h1 : FS.lookup (fs.filter
      (fun e => !(atUnder e.1 src || atUnder e.1 dst))) dst = none := by
    refine lookup_filter_none _ _ _ (fun n => ?_)
    simp [atUnder_self]
  rw [h1, lookup_mapped_filter src dst fs hd]
  cases hl : FS.lookup fs src <;> simp [Option.or]

theorem mapped_mem_eq_dst {fs : FS} {src dst : CPath}
    (hd : FS.hasDesc fs src = false) {e : CPath × Node}
    (he : e ∈ (fs.filter (fun e => atUnder e.1 src)).map (reRoot src dst)) :
    e.1 = dst := by
  rcases List.mem_map.mp he with ⟨e0, he0, hre⟩
  have h01 : e0.1 = src :=
    atUnder_eq_of_no_desc hd (List.mem_of_mem_filter he0)
      (by simpa using List.of_mem_filter he0)
  rw [← hre]
  simp [reRoot, h01, List.drop_length]

theorem moveTree_exists_src_false {fs : FS} {src dst : CPath}
    (hd : FS.hasDesc fs src = false) (hu : under dst src = false)
    (hne : dst ≠ src) :
    fsExists (fs.moveTree src dst) src = false := by
  rw [fsExists, Bool.or_eq_false_iff]
  refine ⟨?_, ?_⟩
  · rw [FS.moveTree, lookup_append]
    have h1 : FS.lookup (fs.filter
        (fun e => !(atUnder e.1 src || atUnder e.1 dst))) src = none := by
      refine lookup_filter_none _ _ _ (fun n => ?_)
      simp [atUnder_self]
    have h2 : FS.lookup ((fs.filter (fun e => atUnder e.1 src)).map
        (reRoot src dst)) src = none := by
      refine lookup_of_all_ne (fun e he => ?_)
      rw [mapped_mem_eq_dst hd he]
      exact hne
    rw [h1, h2]
    rfl
  · rw [FS.moveTree, hasDesc_append, Bool.or_eq_false_iff]
    refine ⟨hasDesc_filter_false _ hd, ?_⟩
    refine hasDesc_of_all_not_under (fun e he => ?_)
    rw [mapped_mem_eq_dst hd he]
    exact hu

/-! Concrete paths, environments and states used by instance theorems. -/

/-- Benign provider environment: no rejections, no failing writes. -/
def env0 : Env := ⟨false, [], []⟩

/-- Initial machine state over a filesystem, benign environment. -/
def stOf (fs : FS) : St := ⟨env0, fs, [], [], []⟩

/-- Initial machine state over a filesystem and environment. -/
def stOfEnv (env : Env) (fs : FS) : St := ⟨env, fs, [], [], []⟩

/-- Local path from segments. -/
def locP (l : List String) : CPath := ⟨.loc, l⟩

/-- GCS path from bucket and segments. -/
def gsP (b : String) (l : List String) : CPath := ⟨.cloud .gs b, l⟩

/-- S3 path from bucket and segments. -/
def s3P (b : String) (l : List String) : CPath := ⟨.cloud .s3 b, l⟩

/-- Azure path from container and segments. -/
def azP (b : String) (l : List String) : CPath := ⟨.cloud .azure b, l⟩

/-- Whether this event is a completed (synchronous) copy or atomic move
whose source is `p`.  A merely started asynchronous copy does not count. -/
def completedCopyOf (p : CPath) : Ev → Bool
  | .copied s _ => decide (s = p)
  | .movedAtomic s _ => decide (s = p)
  | .renamed s _ => decide (s = p)
  | .replacedEv s _ => decide (s = p)
  | _ => false

/-- Helper for `delOnlyAfterCompleted`: `done` is the already-seen part of
the trace. -/
def delGo (done : List Ev) : List Ev → Bool
  | [] => true
  | .deleted p :: rest =>
      done.any (completedCopyOf p) && delGo (done ++ [.deleted p]) rest
  | e :: rest => delGo (done ++ [e]) rest

/-- Every deletion in the trace is preceded by a completed copy or atomic
move out of the deleted path — the "only delete source if copy fully
succeeded" discipline. -/
def delOnlyAfterCompleted (tr : List Ev) : Bool := delGo [] tr

/-- The Azure source blob of the C3 failing input. -/
def c3azSrc : CPath := azP "c1" ["f.txt"]

/-- The Azure destination blob of the C3 failing input. -/
def c3azDst : CPath := azP "c2" ["g.txt"]

/-- C3: the spec says a cross-container or cross-provider move deletes the
source only after the copy fully succeeded.  For the S3 engine this holds:
the trace is a completed copy followed by the delete.  For the Azure engine
the code merely starts an asynchronous copy, sleeps half a second, and
deletes the source unconditionally — the trace contains no completed copy
before the delete, contradicting the code's own comment "Wait for copy to
complete before deleting". -/
theorem cloudsh_c3_azure_deletes_after_async_start :
    (cloudToCloudMove c3azSrc c3azDst (stOf [(c3azSrc, .file "x" 1)]) =
      .ok ⟨env0, [(c3azDst, .file "x" 1)],
        [.startedCopy c3azSrc c3azDst, .slept, .deleted c3azSrc], [], []⟩
        ()) ∧
    delOnlyAfterCompleted
      [.startedCopy c3azSrc c3azDst, .slept, .deleted c3azSrc] = false ∧
    (cloudToCloudMove (s3P "b1" ["f.txt"]) (s3P "b2" ["g.txt"])
      (stOf [(s3P "b1" ["f.txt"], .file "x" 1)]) =
      .ok ⟨env0, [(s3P "b2" ["g.txt"], .file "x" 1)],
        [.copied (s3P "b1" ["f.txt"]) (s3P "b2" ["g.txt"]),
         .deleted (s3P "b1" ["f.txt"])], [], []⟩ ()) ∧
    delOnlyAfterCompleted
      [.copied (s3P "b1" ["f.txt"]) (s3P "b2" ["g.txt"]),
       .deleted (s3P "b1" ["f.txt"])] = true := by
  refine ⟨?_, ?_, ?_, ?_⟩ <;> decide

/-! Preservation lemmas: a parent-directory mkdir does not disturb paths
that are not ancestors of the created directory. -/

theorem mkLocal_lookup_preserve {fs : FS} {p q : CPath}
    (h : ∀ i, i < p.segs.length →
      (⟨p.scheme, p.segs.take (i + 1)⟩ : CPath) ≠ q) :
    FS.lookup (mkdirParentsLocal fs p) q = FS.lookup fs q := by
  rw [mkdirParentsLocal, lookup_append]
  have hnone : FS.lookup ((List.range p.segs.length).filterMap (fun i =>
      let qq : CPath := ⟨p.scheme, p.segs.take (i + 1)⟩
      if (fs.lookup qq).isSome then none else some (qq, Node.dir))) q =
        none := by
    refine lookup_of_all_ne (fun e he => ?_)
    rcases mkLocal_mem he with ⟨i, hi, hei⟩
    rw [hei]
    exact h i hi
  rw [hnone]
  cases hl : FS.lookup fs q <;> simp [Option.or]

theorem mkLocal_hasDesc_preserve {fs : FS} {p q : CPath}
    (h : ∀ i, i < p.segs.length →
      under (⟨p.scheme, p.segs.take (i + 1)⟩ : CPath) q = false) :
    FS.hasDesc (mkdirParentsLocal fs p) q = FS.hasDesc fs q := by
  rw [mkdirParentsLocal, hasDesc_append]
  have hnone : FS.hasDesc ((List.range p.segs.length).filterMap (fun i =>
      let qq : CPath := ⟨p.scheme, p.segs.take (i + 1)⟩
      if (fs.lookup qq).isSome then none else some (qq, Node.dir))) q =
        false := by
    refine hasDesc_of_all_not_under (fun e he => ?_)
    rcases mkLocal_mem he with ⟨i, hi, hei⟩
    rw [hei]
    exact h i hi
  rw [hnone]
  simp

theorem mkEff_lookup_preserve {fs : FS} {p q : CPath}
    (h : ∀ i, i < p.segs.length →
      (⟨p.scheme, p.segs.take (i + 1)⟩ : CPath) ≠ q) :
    FS.lookup (mkdirEff fs p) q = FS.lookup fs q := by
  cases p with
  | mk sc segs =>
      cases sc with
      | loc => exact mkLocal_lookup_preserve h
      | cloud pr b => rfl

theorem mkEff_hasDesc_preserve {fs : FS} {p q : CPath}
    (h : ∀ i, i < p.segs.length →
      under (⟨p.scheme, p.segs.take (i + 1)⟩ : CPath) q = false) :
    FS.hasDesc (mkdirEff fs p) q = FS.hasDesc fs q := by
  cases p with
  | mk sc segs =>
      cases sc with
      | loc => exact mkLocal_hasDesc_preserve h
      | cloud pr b => rfl

/-- A created ancestor prefix of `d.parent` that coincides with `q` makes
`q` a proper ancestor of `d`. -/
theorem under_of_anc_eq {d q : CPath} {i : Nat}
    (hi : i < d.parent.segs.length)
    (heq : (⟨d.parent.scheme, d.parent.segs.take (i + 1)⟩ : CPath) = q) :
    under d q = true := by
  subst heq
  refine under_iff.mpr ⟨rfl, ?_, ?_⟩
  · calc (d.parent.segs.take (i + 1)) <+: d.parent.segs :=
          List.take_prefix _ _
      _ <+: d.segs := by
          rw [CPath.parent, List.dropLast_eq_take]
          exact List.take_prefix _ _
  · show (d.parent.segs.take (i + 1)).length < d.segs.length
    have h1 : (d.parent.segs.take (i + 1)).length =
        min (i + 1) d.parent.segs.length := List.length_take _ _
    have h2 : d.parent.segs.length = d.segs.length - 1 := by
      rw [CPath.parent, List.length_dropLast]
    omega

/-- Something strictly below a created ancestor prefix of `d.parent` is
itself strictly above `d` only if `q` is a proper ancestor of `d`. -/
theorem under_of_anc_under {d q : CPath} {i : Nat}
    (hi : i < d.parent.segs.length)
    (hu : under (⟨d.parent.scheme, d.parent.segs.take (i + 1)⟩ : CPath) q =
      true) :
    under d q = true := by
  rcases under_iff.mp hu with ⟨hs, hpre, hlen⟩
  refine under_iff.mpr ⟨by rw [← hs]; rfl, ?_, ?_⟩
  · calc q.segs <+: d.parent.segs.take (i + 1) := hpre
      _ <+: d.parent.segs := List.take_prefix _ _
      _ <+: d.segs := by
          rw [CPath.parent, List.dropLast_eq_take]
          exact List.take_prefix _ _
  · have hlen2 : q.segs.length < (d.parent.segs.take (i + 1)).length := hlen
    have h1 : (d.parent.segs.take (i + 1)).length =
        min (i + 1) d.parent.segs.length := List.length_take _ _
    have h2 : d.parent.segs.length = d.segs.length - 1 := by
      rw [CPath.parent, List.length_dropLast]
    omega

/-! Further reduction lemmas for primitives. -/

theorem mkdirPrim_app (p : CPath) (s : St) :
    mkdirPrim p s = .ok { s with fs := mkdirEff s.fs p } () := rfl

theorem unlinkPrim_app (p : CPath) (s : St) :
    unlinkPrim p s =
      .ok { s with
              fs := s.fs.erase p,
              trace := s.trace ++ [.deleted p] } () := rfl

/-! Shared argument namespaces for transfer-level theorems; `_copy_path`
and `_move_path` never read `SOURCE`/`DEST`, only the flags. -/

/-- cp flags with a given no-clobber setting, everything else off. -/
def cpFlags (nc : Bool) : CpArgs :=
  ⟨[], "", false, false, false, nc, false, false, none, false, false, true⟩

/-- mv flags with given no-clobber and update settings, everything else
off. -/
def mvFlags (nc : Bool) (u : Bool) (upd : Option String) : MvArgs :=
  ⟨[], "", u, false, nc, false, none, false, upd, true⟩

/-! Claim C1. -/

/-- mv namespace of the C1 counterexample invocation. -/
def c1margs : MvArgs :=
  ⟨["/a.txt"], "/b/c.txt", false, false, false, false, none, false, none, true⟩

/-- Initial filesystem of the C1 counterexample: `/a.txt` exists, the
destination parent `/b` does not. -/
def c1fs0 : FS := [(locP ["a.txt"], .file "x" 1)]

/-- C1 fails on mv: moving `/a.txt` to `/b/c.txt` while `/b` does not exist
succeeds (exit status ok, no stderr) and writes the destination — `mv`
creates the missing parent via `dst.parent.mkdir(parents=True)` instead of
failing with a NoSuchDirectory error. -/
theorem cloudsh_c1_counterexample :
    fsExists c1fs0 (locP ["b", "c.txt"]).parent = false ∧
    mvRun 4 c1margs (stOf c1fs0) =
      .ok ⟨env0, [(locP ["b"], .dir), (locP ["b", "c.txt"], .file "x" 1)],
        [.replacedEv (locP ["a.txt"]) (locP ["b", "c.txt"])], [], []⟩ () ∧
    FS.lookup [(locP ["b"], .dir), (locP ["b", "c.txt"], .file "x" 1)]
      (locP ["b", "c.txt"]) = some (.file "x" 1) :=
  ⟨rfl, rfl, rfl⟩

/-- C1 as amended: for cp, a single-entry copy whose destination parent
does not exist fails with the NoSuchDirectory-class message on stderr and
exit status 1 with nothing written (first conjunct, fully general); for mv,
the missing parent is instead created and the move proceeds, relocating the
source to the destination (second conjunct). -/
theorem cloudsh_c1_amended :
    (∀ (fuel : Nat) (args : CpArgs) (src dst : CPath) (st : St),
      fsExists st.fs dst.parent = false →
      copyPath (fuel + 1) args src dst st =
        .exit { st with errs := st.errs ++ [cpCannotCreateMsg dst] } 1) ∧
    (∀ (c : String) (m : Int),
      mvRun 4 c1margs (stOf [(locP ["a.txt"], .file c m)]) =
        .ok ⟨env0, [(locP ["b"], .dir), (locP ["b", "c.txt"], .file c m)],
          [.replacedEv (locP ["a.txt"]) (locP ["b", "c.txt"])], [], []⟩ ()) := by
  constructor
  · intro fuel args src dst st h
    simp only [copyPath, bind_app, getSt_app, h, Bool.false_eq_true,
      not_false_iff, if_true, eprintLn_app, sysExit_app]
  · intro c m
    rfl

/-- Witness for the amended C1, applying both conjuncts at concrete
inputs. -/
theorem cloudsh_c1_amended_witness :
    fsExists c1fs0 (locP ["b", "c.txt"]).parent = false ∧
    copyPath 1 (cpFlags false) (locP ["a.txt"]) (locP ["b", "c.txt"])
      (stOf c1fs0) =
      .exit { stOf c1fs0 with
                errs := [cpCannotCreateMsg (locP ["b", "c.txt"])] } 1 ∧
    mvRun 4 c1margs (stOf [(locP ["a.txt"], .file "x" 1)]) =
      .ok ⟨env0, [(locP ["b"], .dir), (locP ["b", "c.txt"], .file "x" 1)],
        [.replacedEv (locP ["a.txt"]) (locP ["b", "c.txt"])], [], []⟩ () :=
  ⟨rfl,
   cloudsh_c1_amended.1 0 (cpFlags false) (locP ["a.txt"])
     (locP ["b", "c.txt"]) (stOf c1fs0) rfl,
   cloudsh_c1_amended.2 "x" 1⟩

/-! Claim C9. -/

/-- Filesystem of the C9 counterexample: the source is a file, the resolved
destination `/d/s.txt` is an existing directory. -/
def c9fs : FS :=
  [(locP ["s.txt"], .file "x" 1), (locP ["d"], .dir),
   (locP ["d", "s.txt"], .dir)]

/-- C9 fails as stated: with `no_clobber` set, a copy whose resolved
destination `/d/s.txt` is an existing directory and whose source is a file
returns silently (ok, no stderr, no exit) instead of failing with the
TargetIsDirectory error — the no-clobber check runs before the directory
check. -/
theorem cloudsh_c9_counterexample :
    fsIsDir c9fs (locP ["d", "s.txt"]) = true ∧
    fsIsDir c9fs (locP ["s.txt"]) = false ∧
    copyPath 1 (cpFlags true) (locP ["s.txt"]) (locP ["d"]) (stOf c9fs) =
      .ok (stOf c9fs) (cpFlags true) :=
  ⟨rfl, rfl, rfl⟩

/-- C9 as amended: when the resolved destination (directory destination
plus source name) is an existing directory and the source is not a
directory, and no earlier conflict rule (no-clobber, interactive decline,
or — for mv — an update-policy skip) suppressed the operation first, both
commands fail with the "cannot overwrite directory ... with non-directory"
message and exit status 1. -/
theorem cloudsh_c9_amended :
    (∀ (fuel : Nat) (args : CpArgs) (src d0 : CPath) (st : St),
      args.no_clobber = false → args.interactive = false →
      fsExists st.fs d0.parent = true →
      fsExists st.fs d0 = true → fsIsDir st.fs d0 = true →
      fsIsDir st.fs src = false →
      fsExists st.fs (d0.child src.name) = true →
      fsIsDir st.fs (d0.child src.name) = true →
      copyPath (fuel + 1) args src d0 st =
        .exit { st with
                  errs := st.errs ++ [cpOverwriteDirMsg (d0.child src.name)] }
          1) ∧
    (∀ (fuel : Nat) (args : MvArgs) (src d0 : CPath) (st : St),
      args.no_clobber = false → args.interactive = false →
      args.update ≠ some "none" → args.u = false →
      args.update ≠ some "older" →
      d0.segs ≠ [] → under d0 src = false →
      fsExists st.fs d0 = true → fsIsDir st.fs d0 = true →
      fsIsDir st.fs src = false →
      fsExists st.fs (d0.child src.name) = true →
      fsIsDir st.fs (d0.child src.name) = true →
      movePath (fuel + 1) args src d0 st =
        .exit { st with
                  fs := mkdirEff st.fs d0.parent,
                  errs := st.errs ++
                    [mvOverwriteDirMsg (d0.child src.name)] } 1) := by
  constructor
  · intro fuel args src d0 st hnc hint hpar he0 hd0 hsrc hec hdc
    simp [copyPath, bind_app, getSt_app, pure_app, eprintLn_app,
      sysExit_app, hpar, he0, hd0, hsrc, hec, hdc, hnc, hint]
  · intro fuel args src d0 st hnc hint hun hu huo hseg hund he0 hd0 hsrc
      hec hdc
    have hplen : d0.parent.segs.length < d0.segs.length := parent_length hseg
    have hclen : d0.segs.length < (d0.child src.name).segs.length := by
      simp [CPath.child]
    have hFl : ∀ q : CPath, d0.parent.segs.length < q.segs.length →
        FS.lookup (mkdirEff st.fs d0.parent) q = FS.lookup st.fs q :=
      fun q hq => mkEff_lookup_deeper st.fs hq
    have hFd : ∀ q : CPath, d0.parent.segs.length ≤ q.segs.length →
        FS.hasDesc (mkdirEff st.fs d0.parent) q = FS.hasDesc st.fs q :=
      fun q hq => mkEff_hasDesc_deeper st.fs hq
    have he0' : fsExists (mkdirEff st.fs d0.parent) d0 = true := by
      rw [fsExists, hFl d0 hplen, hFd d0 (le_of_lt hplen)]; exact he0
    have hd0' : fsIsDir (mkdirEff st.fs d0.parent) d0 = true := by
      rw [fsIsDir, hFl d0 hplen, hFd d0 (le_of_lt hplen)]; exact hd0
    have hec' : fsExists (mkdirEff st.fs d0.parent) (d0.child src.name) =
        true := by
      rw [fsExists, hFl _ (lt_trans hplen hclen),
        hFd _ (le_of_lt (lt_trans hplen hclen))]
      exact hec
    have hdc' : fsIsDir (mkdirEff st.fs d0.parent) (d0.child src.name) =
        true := by
      rw [fsIsDir, hFl _ (lt_trans hplen hclen),
        hFd _ (le_of_lt (lt_trans hplen hclen))]
      exact hdc
    have hsl : FS.lookup (mkdirEff st.fs d0.parent) src =
        FS.lookup st.fs src := by
      refine mkEff_lookup_preserve (fun i hi heq => ?_)
      rw [under_of_anc_eq hi heq] at hund
      exact Bool.noConfusion hund
    have hsd : FS.hasDesc (mkdirEff st.fs d0.parent) src =
        FS.hasDesc st.fs src := by
      refine mkEff_hasDesc_preserve (fun i hi => ?_)
      cases hq : under (⟨d0.parent.scheme, d0.parent.segs.take (i + 1)⟩ :
          CPath) src with
      | false => rfl
      | true =>
          rw [under_of_anc_under hi hq] at hund
          exact Bool.noConfusion hund
    have hsrc' : fsIsDir (mkdirEff st.fs d0.parent) src = false := by
      rw [fsIsDir, hsl, hsd]; exact hsrc
    simp [movePath, bind_app, tryE_app, mkdirPrim_app, getSt_app,
      pure_app, eprintLn_app, sysExit_app, mvUpdateSkip,
      he0', hd0', hec', hdc', hsrc', hnc, hint, hu, huo, hun]

/-- Witness for the amended C9, applying both conjuncts on the concrete
filesystem of the counterexample with the no-clobber flag off. -/
theorem cloudsh_c9_amended_witness :
    fsIsDir c9fs (locP ["d", "s.txt"]) = true ∧
    copyPath 1 (cpFlags false) (locP ["s.txt"]) (locP ["d"]) (stOf c9fs) =
      .exit { stOf c9fs with
                errs := [cpOverwriteDirMsg (locP ["d", "s.txt"])] } 1 ∧
    movePath 1 (mvFlags false false none) (locP ["s.txt"]) (locP ["d"])
      (stOf c9fs) =
      .exit { stOf c9fs with
                fs := mkdirEff c9fs (locP ["d"]).parent,
                errs := [mvOverwriteDirMsg (locP ["d", "s.txt"])] } 1 :=
  ⟨rfl,
   cloudsh_c9_amended.1 0 (cpFlags false) (locP ["s.txt"]) (locP ["d"])
     (stOf c9fs) rfl rfl rfl rfl rfl rfl rfl rfl,
   cloudsh_c9_amended.2 0 (mvFlags false false none) (locP ["s.txt"])
     (locP ["d"]) (stOf c9fs) rfl rfl (by simp [mvFlags]) rfl
     (by simp [mvFlags]) (by simp [locP]) rfl rfl rfl rfl rfl rfl⟩

/-! Claim C5. -/

/-- cp namespace of the C5 counterexample: two sources, the first local,
the second a cloud path; cloud destination directory; `--parents`. -/
def c5cargs : CpArgs := ⟨["/a.txt", "gs://b/src.txt"], "gs://b/dir",
  false, false, false, false, false, false, none, false, true, true⟩

/-- Initial filesystem of the C5 counterexample. -/
def c5fs : FS := [(locP ["a.txt"], .file "x" 1),
  (gsP "b" ["dir", "existing.txt"], .file "e" 1),
  (gsP "b" ["src.txt"], .file "s" 1)]

/-- Final filesystem of the C5 counterexample run. -/
def c5fsAfter : FS := [(locP ["a.txt"], .file "x" 1),
  (gsP "b" ["dir", "existing.txt"], .file "e" 1),
  (gsP "b" ["src.txt"], .file "s" 1),
  (gsP "b" ["dir", "a.txt"], .file "x" 1)]

/-- C5 fails as stated: the `--parents`-with-cloud-paths check runs inside
the per-source loop, so with sources `[/a.txt, gs://b/src.txt]` and cloud
destination the command does exit 1 with the descriptive error, but only
after the earlier local source has already been copied to the cloud
destination — some transfer did begin. -/
theorem cloudsh_c5_counterexample :
    cpRun 6 c5cargs (stOf c5fs) =
      .exit ⟨env0, c5fsAfter,
        [.writeAttempt (gsP "b" ["dir", "a.txt"]) false,
         .copied (locP ["a.txt"]) (gsP "b" ["dir", "a.txt"])],
        [cpParentsCloudMsg], []⟩ 1 ∧
    FS.lookup c5fsAfter (gsP "b" ["dir", "a.txt"]) =
      some (.file "x" 1) :=
  ⟨rfl, rfl⟩

/-- C5 as amended: when the first source of the invocation is itself a
cloud path (cloud destination directory, `--parents`, no
`--target-directory`), the command fails with the descriptive error before
any transfer begins — the filesystem is untouched; when an earlier source
is not a cloud path it has already been copied by the time the check fires
(counterexample). -/
theorem cloudsh_c5_amended (fuel : Nat) (args : CpArgs) (s : String)
    (rest : List String) (st : St)
    (hp : args.parents = true) (htd : args.target_directory = none)
    (hS : args.SOURCE = s :: rest)
    (hsc : (parsePath (rstripSlashes s)).isCloud = true)
    (hdc : (parsePath (rstripSlashes args.DEST)).isCloud = true)
    (hdd : fsIsDir st.fs (parsePath (rstripSlashes args.DEST)) = true) :
    cpRun fuel args st =
      .exit { st with errs := st.errs ++ [cpParentsCloudMsg] } 1 := by
  have hb1 : ∀ cwd, resolvePath cwd (rstripSlashes s) =
      parsePath (rstripSlashes s) := fun cwd => resolvePath_isCloud cwd _ hsc
  have hb2 : ∀ cwd, resolvePath cwd (rstripSlashes args.DEST) =
      parsePath (rstripSlashes args.DEST) := fun cwd =>
    resolvePath_isCloud cwd _ hdc
  simp [cpRun, cpLoop, bind_app, getSt_app, pure_app, eprintLn_app,
    sysExit_app, hp, htd, hS, hb1, hb2, hsc, hdc, hdd, isTruthy]

/-- Witness for the amended C5: a single cloud source, cloud destination
directory, `--parents`. -/
theorem cloudsh_c5_witness :
    (parsePath (rstripSlashes "gs://b/src.txt")).isCloud = true ∧
    cpRun 6 ⟨["gs://b/src.txt"], "gs://b/dir", false, false, false, false,
        false, false, none, false, true, true⟩ (stOf c5fs) =
      .exit { stOf c5fs with errs := [cpParentsCloudMsg] } 1 :=
  ⟨rfl,
   cloudsh_c5_amended 6 ⟨["gs://b/src.txt"], "gs://b/dir", false, false,
     false, false, false, false, none, false, true, true⟩ "gs://b/src.txt"
     [] (stOf c5fs) rfl rfl rfl rfl rfl rfl⟩

/-! Claim C8. -/

/-- cp namespace of the C8 scenario: two sources, the second missing. -/
def c8cargs : CpArgs := ⟨["/src1.txt", "/missing.txt"], "/d",
  false, false, false, false, false, false, none, false, false, true⟩

/-- mv namespace of the C8 scenario. -/
def c8margs : MvArgs := ⟨["/src1.txt", "/missing.txt"], "/d",
  false, false, false, false, none, false, none, true⟩

set_option maxHeartbeats 2000000 in
/-- C8: in a multi-source cp or mv where the second source fails its
precondition (it does not exist), the command reports the error on stderr
and exits 1, while the transfer completed for the first source stays
completed — the first source's content sits at the destination and is not
rolled back.  Universal over the first source's content and timestamp. -/
theorem cloudsh_c8_partial_failure (c : String) (m : Int) :
    (cpRun 6 c8cargs (stOf [(locP ["src1.txt"], .file c m),
        (locP ["d"], .dir)]) =
      .exit ⟨env0,
        [(locP ["src1.txt"], .file c m), (locP ["d"], .dir),
         (locP ["d", "src1.txt"], .file c m)],
        [.copied (locP ["src1.txt"]) (locP ["d", "src1.txt"])],
        [cpCannotCopyMsg (locP ["missing.txt"]) (locP ["d", "missing.txt"])
          "No such file or directory"], []⟩ 1) ∧
    FS.lookup [(locP ["src1.txt"], .file c m), (locP ["d"], .dir),
        (locP ["d", "src1.txt"], .file c m)] (locP ["d", "src1.txt"]) =
      some (.file c m) ∧
    (mvRun 6 c8margs (stOf [(locP ["src1.txt"], .file c m),
        (locP ["d"], .dir)]) =
      .exit ⟨env0,
        [(locP ["d"], .dir), (locP ["d", "src1.txt"], .file c m)],
        [.replacedEv (locP ["src1.txt"]) (locP ["d", "src1.txt"])],
        [mvCannotStatMsg "/missing.txt"], []⟩ 1) ∧
    FS.lookup [(locP ["d"], .dir), (locP ["d", "src1.txt"], .file c m)]
      (locP ["d", "src1.txt"]) = some (.file c m) ∧
    FS.lookup [(locP ["d"], .dir), (locP ["d", "src1.txt"], .file c m)]
      (locP ["src1.txt"]) = none :=
  ⟨rfl, rfl, rfl, rfl, rfl⟩

/-! Claim C6. -/

/-- C6: with `no_clobber` set and the resolved destination an existing
file, both copy and move are silent no-ops that succeed: cp returns with
the state untouched; mv returns having at most created the destination's
parent directories, with the destination entry unchanged (final conjuncts),
so a second invocation from the resulting state is again the same no-op and
nothing ever raises. -/
theorem cloudsh_c6_no_clobber_noop :
    (∀ (fuel : Nat) (args : CpArgs) (src dst : CPath) (st : St)
      (cd : String) (md : Int),
      args.no_clobber = true →
      FS.lookup st.fs dst = some (.file cd md) →
      FS.hasDesc st.fs dst = false →
      fsExists st.fs dst.parent = true →
      copyPath (fuel + 1) args src dst st = .ok st args) ∧
    (∀ (fuel : Nat) (args : MvArgs) (src dst : CPath) (st : St)
      (cd : String) (md : Int),
      args.no_clobber = true → dst.segs ≠ [] →
      FS.lookup st.fs dst = some (.file cd md) →
      FS.hasDesc st.fs dst = false →
      movePath (fuel + 1) args src dst st =
        .ok { st with fs := mkdirEff st.fs dst.parent } () ∧
      FS.lookup (mkdirEff st.fs dst.parent) dst = some (.file cd md) ∧
      FS.hasDesc (mkdirEff st.fs dst.parent) dst = false) := by
  constructor
  · intro fuel args src dst st cd md hnc hl hdd hpar
    have he : fsExists st.fs dst = true := by simp [fsExists, hl]
    have hid : fsIsDir st.fs dst = false := by simp [fsIsDir, hl, hdd]
    simp [copyPath, bind_app, getSt_app, pure_app, hpar, he, hid, hnc]
  · intro fuel args src dst st cd md hnc hseg hl hdd
    have hplen : dst.parent.segs.length < dst.segs.length :=
      parent_length hseg
    have hl' : FS.lookup (mkdirEff st.fs dst.parent) dst =
        some (.file cd md) := by
      rw [mkEff_lookup_deeper st.fs hplen]; exact hl
    have hdd' : FS.hasDesc (mkdirEff st.fs dst.parent) dst = false := by
      rw [mkEff_hasDesc_deeper st.fs (le_of_lt hplen)]; exact hdd
    have he' : fsExists (mkdirEff st.fs dst.parent) dst = true := by
      simp [fsExists, hl']
    have hid' : fsIsDir (mkdirEff st.fs dst.parent) dst = false := by
      simp [fsIsDir, hl', hdd']
    refine ⟨?_, hl', hdd'⟩
    simp [movePath, bind_app, tryE_app, mkdirPrim_app, getSt_app,
      pure_app, he', hid', hnc]

/-- Witness for C6 at a concrete state: destination `/dst.txt` already
populated, no-clobber set; cp leaves the state untouched and mv leaves the
destination entry unchanged. -/
theorem cloudsh_c6_witness :
    FS.lookup [(locP ["s.txt"], Node.file "new" 9),
        (locP ["dst.txt"], Node.file "old" 1)] (locP ["dst.txt"]) =
      some (.file "old" 1) ∧
    copyPath 1 (cpFlags true) (locP ["s.txt"]) (locP ["dst.txt"])
      (stOf [(locP ["s.txt"], .file "new" 9),
        (locP ["dst.txt"], .file "old" 1)]) =
      .ok (stOf [(locP ["s.txt"], .file "new" 9),
        (locP ["dst.txt"], .file "old" 1)]) (cpFlags true) ∧
    movePath 1 (mvFlags true false none) (locP ["s.txt"]) (locP ["dst.txt"])
      (stOf [(locP ["s.txt"], .file "new" 9),
        (locP ["dst.txt"], .file "old" 1)]) =
      .ok { stOf [(locP ["s.txt"], .file "new" 9),
        (locP ["dst.txt"], .file "old" 1)] with
          fs := mkdirEff [(locP ["s.txt"], .file "new" 9),
            (locP ["dst.txt"], .file "old" 1)] (locP ["dst.txt"]).parent }
        () :=
  ⟨rfl,
   cloudsh_c6_no_clobber_noop.1 0 (cpFlags true) (locP ["s.txt"])
     (locP ["dst.txt"])
     (stOf [(locP ["s.txt"], .file "new" 9),
       (locP ["dst.txt"], .file "old" 1)]) "old" 1 rfl rfl rfl rfl,
   (cloudsh_c6_no_clobber_noop.2 0 (mvFlags true false none)
     (locP ["s.txt"]) (locP ["dst.txt"])
     (stOf [(locP ["s.txt"], .file "new" 9),
       (locP ["dst.txt"], .file "old" 1)]) "old" 1 rfl
     (by simp [locP]) rfl rfl).1⟩

/-! Claim C7. -/

/-- C7: a local-to-cloud single-file copy where the provider rejects the
unforced write with the "cloud object is newer" signal.  When force policy
is in effect, the engine retries the same transfer exactly once with the
explicit force-overwrite flag and succeeds (the trace shows one unforced
attempt, one forced attempt, one completed copy); otherwise the error
propagates out of `_copy_path` as an uncaught exception after the single
unforced attempt, with nothing written. -/
theorem cloudsh_c7_force_retry (fuel : Nat) (args : CpArgs)
    (src dst : CPath) (st : St) (cs : String) (ms : Int)
    (hrej : st.env.rejectsUnforced = true)
    (hfw : dst ∉ st.env.failWrites)
    (hsl : src.scheme = .loc) (hdc : dst.isCloud = true)
    (hsrc : FS.lookup st.fs src = some (.file cs ms))
    (hsd : FS.hasDesc st.fs src = false)
    (hpar : fsExists st.fs dst.parent = true)
    (hde : fsExists st.fs dst = false)
    (hv : args.verbose = false) :
    (args.force = true →
      copyPath (fuel + 1) args src dst st =
        .ok { st with
                fs := st.fs.set dst (.file cs ms),
                trace := st.trace ++ [.writeAttempt dst false,
                  .writeAttempt dst true, .copied src dst] } args) ∧
    (args.force = false →
      copyPath (fuel + 1) args src dst st =
        .exn { st with trace := st.trace ++ [.writeAttempt dst false] }
          .overwriteNewerCloud) := by
  have hsc : src.isCloud = false := by simp [CPath.isCloud, hsl]
  have hsdir : fsIsDir st.fs src = false := by
    simp [fsIsDir, hsrc, hsd]
  constructor
  · intro hf
    simp [copyPath, bind_app, tryE_app, getSt_app, pure_app, printLn_app,
      copyDispatch, copyNewerHandler, uploadFrom, copyCross, emit_app,
      rejectIfUnforced, chkFail, srcFileOrRaise, modFS_app, cloudToCloudCopy,
      hrej, hfw, hsc, hdc, hsdir, hsrc, hpar, hde, hv, hf, Exn.isOsError]
  · intro hf
    simp [copyPath, bind_app, tryE_app, getSt_app, pure_app, printLn_app,
      copyDispatch, copyNewerHandler, uploadFrom, copyCross, emit_app,
      rejectIfUnforced, chkFail, srcFileOrRaise, modFS_app, cloudToCloudCopy,
      raiseExn_app, hrej, hfw, hsc, hdc, hsdir, hsrc, hpar, hde, hv, hf,
      Exn.isOsError]

/-- Witness for C7: upload of `/s.txt` to `gs://b/x.txt` under a provider
that rejects unforced writes, with `-f` in effect. -/
theorem cloudsh_c7_witness :
    (stOfEnv ⟨true, [], []⟩ [(locP ["s.txt"], .file "c" 1),
      (gsP "b" ["y.txt"], .file "e" 9)]).env.rejectsUnforced = true ∧
    copyPath 1 ⟨[], "", false, false, true, false, false, false, none,
        false, false, true⟩ (locP ["s.txt"]) (gsP "b" ["x.txt"])
      (stOfEnv ⟨true, [], []⟩ [(locP ["s.txt"], .file "c" 1),
        (gsP "b" ["y.txt"], .file "e" 9)]) =
      .ok { stOfEnv ⟨true, [], []⟩ [(locP ["s.txt"], .file "c" 1),
              (gsP "b" ["y.txt"], .file "e" 9)] with
              fs := FS.set [(locP ["s.txt"], .file "c" 1),
                (gsP "b" ["y.txt"], .file "e" 9)] (gsP "b" ["x.txt"])
                (.file "c" 1),
              trace := [.writeAttempt (gsP "b" ["x.txt"]) false,
                .writeAttempt (gsP "b" ["x.txt"]) true,
                .copied (locP ["s.txt"]) (gsP "b" ["x.txt"])] }
        ⟨[], "", false, false, true, false, false, false, none, false,
          false, true⟩ :=
  ⟨rfl,
   (cloudsh_c7_force_retry 0 ⟨[], "", false, false, true, false, false,
     false, none, false, false, true⟩ (locP ["s.txt"]) (gsP "b" ["x.txt"])
     (stOfEnv ⟨true, [], []⟩ [(locP ["s.txt"], .file "c" 1),
       (gsP "b" ["y.txt"], .file "e" 9)]) "c" 1 rfl (by decide) rfl rfl
     rfl rfl rfl rfl rfl).1 rfl⟩

/-! Claim C2. -/

set_option maxHeartbeats 3200000 in
/-- C2: a move executed under the `update_if_source_newer` policy (`-u` or
`--update=older`) against an existing destination file is a no-op exactly
when `source.modify_time <= destination.modify_time` (the destination entry
is unchanged; only missing parent directories may have been created), and
proceeds exactly when the source is strictly newer, after which the
destination holds the source's prior content and the source no longer
exists.  Universal over all storage backends (local, GCS, S3, Azure) on
both sides.  (cp offers no update flag, so the copy half of the claim is
vacuous; see `_copy_path`'s namespace `CpArgs`.) -/
theorem cloudsh_c2_update_policy (fuel : Nat) (args : MvArgs)
    (src dst : CPath) (st : St) (cs cd : String) (ms md : Int)
    (hu : args.u = true ∨ args.update = some "older")
    (hun : args.update ≠ some "none") (hnc : args.no_clobber = false)
    (hint : args.interactive = false) (hverb : args.verbose = false)
    (hrej : st.env.rejectsUnforced = false) (hfw : st.env.failWrites = [])
    (hseg : dst.segs ≠ []) (hne : dst ≠ src)
    (hds : under dst src = false)
    (hls : FS.lookup st.fs src = some (.file cs ms))
    (hhs : FS.hasDesc st.fs src = false)
    (hld : FS.lookup st.fs dst = some (.file cd md))
    (hhd : FS.hasDesc st.fs dst = false) :
    (md ≥ ms →
      movePath (fuel + 1) args src dst st =
        .ok { st with fs := mkdirEff st.fs dst.parent } () ∧
      FS.lookup (mkdirEff st.fs dst.parent) dst = some (.file cd md)) ∧
    (ms > md →
      ∃ st' : St, movePath (fuel + 1) args src dst st = .ok st' () ∧
        FS.lookup st'.fs dst = some (.file cs ms) ∧
        fsExists st'.fs src = false) := by
  have hsrcne : src ≠ dst := fun h => hne h.symm
  have hplen : dst.parent.segs.length < dst.segs.length := parent_length hseg
  have hlFd : FS.lookup (mkdirEff st.fs dst.parent) dst =
      some (.file cd md) := by rw [mkEff_lookup_deeper st.fs hplen]; exact hld
  have hdFd : FS.hasDesc (mkdirEff st.fs dst.parent) dst = false := by
    rw [mkEff_hasDesc_deeper st.fs (le_of_lt hplen)]; exact hhd
  have hlFs : FS.lookup (mkdirEff st.fs dst.parent) src =
      some (.file cs ms) := by
    rw [mkEff_lookup_preserve (fun i hi heq => ?_)]
    · exact hls
    · rw [under_of_anc_eq hi heq] at hds
      exact Bool.noConfusion hds
  have hdFs : FS.hasDesc (mkdirEff st.fs dst.parent) src = false := by
    rw [mkEff_hasDesc_preserve (fun i hi => ?_)]
    · exact hhs
    · cases hq : under (⟨dst.parent.scheme, dst.parent.segs.take (i + 1)⟩ :
          CPath) src with
      | false => rfl
      | true =>
          rw [under_of_anc_under hi hq] at hds
          exact Bool.noConfusion hds
  have heF : fsExists (mkdirEff st.fs dst.parent) dst = true := by
    simp [fsExists, hlFd]
  have hiF : fsIsDir (mkdirEff st.fs dst.parent) dst = false := by
    simp [fsIsDir, hlFd, hdFd]
  have hisF : fsIsDir (mkdirEff st.fs dst.parent) src = false := by
    simp [fsIsDir, hlFs, hdFs]
  have heFs : fsExists (mkdirEff st.fs dst.parent) src = true := by
    simp [fsExists, hlFs]
  have hlED : FS.lookup ((mkdirEff st.fs dst.parent).erase dst) src =
      some (.file cs ms) := by
    rw [lookup_erase_ne _ hsrcne]; exact hlFs
  -- destination lookup and source absence for the three result shapes
  have hlA : FS.lookup (((mkdirEff st.fs dst.parent).set dst
      (.file cs ms)).erase src) dst = some (.file cs ms) := by
    rw [lookup_erase_ne _ hne, lookup_set_self]
  have heA : fsExists (((mkdirEff st.fs dst.parent).set dst
      (.file cs ms)).erase src) src = false := by
    simp [fsExists, lookup_erase_self,
      hasDesc_erase_false (hasDesc_set_false hdFs hds)]
  have hlB : FS.lookup ((((mkdirEff st.fs dst.parent).erase dst).erase
      src).set dst (.file cs ms)) dst = some (.file cs ms) :=
    lookup_set_self _ _ _
  have heB : fsExists ((((mkdirEff st.fs dst.parent).erase dst).erase
      src).set dst (.file cs ms)) src = false := by
    simp [fsExists, lookup_set_ne _ _ hsrcne, lookup_erase_self,
      hasDesc_set_false
        (hasDesc_erase_false (hasDesc_erase_false hdFs)) hds]
  have hlC : FS.lookup ((((mkdirEff st.fs dst.parent).erase dst).set dst
      (.file cs ms)).erase src) dst = some (.file cs ms) := by
    rw [lookup_erase_ne _ hne, lookup_set_self]
  have heC : fsExists ((((mkdirEff st.fs dst.parent).erase dst).set dst
      (.file cs ms)).erase src) src = false := by
    simp [fsExists, lookup_erase_self,
      hasDesc_erase_false
        (hasDesc_set_false (hasDesc_erase_false hdFs) hds)]
  constructor
  · intro hge
    have hdec : decide (md ≥ ms) = true := by simp [hge]
    refine ⟨?_, hlFd⟩
    simp [movePath, bind_app, tryE_app, mkdirPrim_app, getSt_app, pure_app,
      mvUpdateSkip, hu, hun, hnc, hint, heF, hiF, hlFd, hlFs, hdec]
  · intro hgt
    have hdec : ¬ (md ≥ ms) := by omega
    cases hs : src.scheme with
    | loc =>
        have hscl : src.isCloud = false := by simp [CPath.isCloud, hs]
        cases hd : dst.scheme with
        | loc =>
            have hdcl : dst.isCloud = false := by simp [CPath.isCloud, hd]
            refine ⟨{ st with
                fs := (mkdirEff st.fs dst.parent).moveTree src dst,
                trace := st.trace ++ [.replacedEv src dst] }, ?_, ?_, ?_⟩
            · simp [movePath, bind_app, tryE_app, mkdirPrim_app, getSt_app,
                pure_app, mvUpdateSkip, replacePrim, chkFail, modFS_app,
                emit_app, hu, hun, hnc, hint, hverb, heF, hiF, hisF, heFs,
                hlFd, hlFs, hdec, hscl, hdcl, hfw]
            · rw [show ({ st with
                  fs := (mkdirEff st.fs dst.parent).moveTree src dst,
                  trace := st.trace ++ [.replacedEv src dst] } : St).fs =
                  (mkdirEff st.fs dst.parent).moveTree src dst from rfl]
              rw [moveTree_lookup_dst hdFs]
              exact hlFs
            · exact moveTree_exists_src_false hdFs hds hne
        | cloud p2 b2 =>
            have hdcl : dst.isCloud = true := by simp [CPath.isCloud, hd]
            refine ⟨{ st with
                fs := ((mkdirEff st.fs dst.parent).set dst
                  (.file cs ms)).erase src,
                trace := st.trace ++ [.writeAttempt dst false,
                  .copied src dst, .deleted src] }, ?_, hlA, heA⟩
            simp [movePath, bind_app, tryE_app, mkdirPrim_app, getSt_app,
              pure_app, mvUpdateSkip, uploadFrom, unlinkPrim_app,
              rejectIfUnforced, chkFail, srcFileOrRaise, modFS_app,
              emit_app, deleteBlob, hu, hun, hnc, hint, hverb, heF, hiF,
              hisF, hlFd, hlFs, hdec, hscl, hdcl, hfw, hrej]
    | cloud p1 b1 =>
        have hscl : src.isCloud = true := by simp [CPath.isCloud, hs]
        cases hd : dst.scheme with
        | loc =>
            have hdcl : dst.isCloud = false := by simp [CPath.isCloud, hd]
            refine ⟨{ st with
                fs := ((mkdirEff st.fs dst.parent).set dst
                  (.file cs ms)).erase src,
                trace := st.trace ++ [.copied src dst, .deleted src] },
              ?_, hlA, heA⟩
            simp [movePath, bind_app, tryE_app, mkdirPrim_app, getSt_app,
              pure_app, mvUpdateSkip, downloadTo, unlinkPrim_app, chkFail,
              srcFileOrRaise, modFS_app, emit_app, deleteBlob, hu, hun,
              hnc, hint, hverb, heF, hiF, hisF, hlFd, hlFs, hdec, hscl,
              hdcl, hfw]
        | cloud p2 b2 =>
            have hdcl : dst.isCloud = true := by simp [CPath.isCloud, hd]
            cases p1 with
            | gs =>
                cases p2 with
                | gs =>
                    by_cases hb : b1 = b2
                    · refine ⟨{ st with
                        fs := (((mkdirEff st.fs dst.parent).erase
                          dst).erase src).set dst (.file cs ms),
                        trace := st.trace ++ [.deleted dst,
                          .movedAtomic src dst] }, ?_, hlB, heB⟩
                      simp [movePath, bind_app, tryE_app, mkdirPrim_app,
                        getSt_app, pure_app, mvUpdateSkip, cloudToCloudMove,
                        nativeMove, unlinkPrim_app, chkFail, srcFileOrRaise,
                        modFS_app, emit_app, deleteBlob, hu, hun, hnc, hint,
                        hverb, heF, hiF, hisF, hlFd, hlFs, hlED, hdec,
                        hscl, hdcl, hfw, hs, hd, hb]
                    · refine ⟨{ st with
                        fs := (((mkdirEff st.fs dst.parent).erase dst).set
                          dst (.file cs ms)).erase src,
                        trace := st.trace ++ [.deleted dst,
                          .copied src dst, .deleted src] }, ?_, hlC, heC⟩
                      simp [movePath, bind_app, tryE_app, mkdirPrim_app,
                        getSt_app, pure_app, mvUpdateSkip, cloudToCloudMove,
                        nativeCopy, unlinkPrim_app, chkFail, srcFileOrRaise,
                        modFS_app, emit_app, deleteBlob, hu, hun, hnc, hint,
                        hverb, heF, hiF, hisF, hlFd, hlFs, hlED, hdec,
                        hscl, hdcl, hfw, hs, hd, hb]
                | s3 =>
                    refine ⟨{ st with
                      fs := (((mkdirEff st.fs dst.parent).erase dst).erase
                        src).set dst (.file cs ms),
                      trace := st.trace ++ [.deleted dst,
                        .renamed src dst] }, ?_, hlB, heB⟩
                    simp [movePath, bind_app, tryE_app, mkdirPrim_app,
                      getSt_app, pure_app, mvUpdateSkip, cloudToCloudMove,
                      renameFallback, unlinkPrim_app, chkFail,
                      srcFileOrRaise, modFS_app, emit_app, deleteBlob, hu,
                      hun, hnc, hint, hverb, heF, hiF, hisF, hlFd, hlFs,
                      hlED, hdec, hscl, hdcl, hfw, hs, hd]
                | azure =>
                    refine ⟨{ st with
                      fs := (((mkdirEff st.fs dst.parent).erase dst).erase
                        src).set dst (.file cs ms),
                      trace := st.trace ++ [.deleted dst,
                        .renamed src dst] }, ?_, hlB, heB⟩
                    simp [movePath, bind_app, tryE_app, mkdirPrim_app,
                      getSt_app, pure_app, mvUpdateSkip, cloudToCloudMove,
                      renameFallback, unlinkPrim_app, chkFail,
                      srcFileOrRaise, modFS_app, emit_app, deleteBlob, hu,
                      hun, hnc, hint, hverb, heF, hiF, hisF, hlFd, hlFs,
                      hlED, hdec, hscl, hdcl, hfw, hs, hd]
            | s3 =>
                cases p2 with
                | gs =>
                    refine ⟨{ st with
                      fs := (((mkdirEff st.fs dst.parent).erase dst).erase
                        src).set dst (.file cs ms),
                      trace := st.trace ++ [.deleted dst,
                        .renamed src dst] }, ?_, hlB, heB⟩
                    simp [movePath, bind_app, tryE_app, mkdirPrim_app,
                      getSt_app, pure_app, mvUpdateSkip, cloudToCloudMove,
                      renameFallback, unlinkPrim_app, chkFail,
                      srcFileOrRaise, modFS_app, emit_app, deleteBlob, hu,
                      hun, hnc, hint, hverb, heF, hiF, hisF, hlFd, hlFs,
                      hlED, hdec, hscl, hdcl, hfw, hs, hd]
                | s3 =>
                    refine ⟨{ st with
                      fs := (((mkdirEff st.fs dst.parent).erase dst).set
                        dst (.file cs ms)).erase src,
                      trace := st.trace ++ [.deleted dst, .copied src dst,
                        .deleted src] }, ?_, hlC, heC⟩
                    simp [movePath, bind_app, tryE_app, mkdirPrim_app,
                      getSt_app, pure_app, mvUpdateSkip, cloudToCloudMove,
                      nativeCopy, unlinkPrim_app, chkFail, srcFileOrRaise,
                      modFS_app, emit_app, deleteBlob, hu, hun, hnc, hint,
                      hverb, heF, hiF, hisF, hlFd, hlFs, hlED, hdec, hscl,
                      hdcl, hfw, hs, hd]
                | azure =>
                    refine ⟨{ st with
                      fs := (((mkdirEff st.fs dst.parent).erase dst).erase
                        src).set dst (.file cs ms),
                      trace := st.trace ++ [.deleted dst,
                        .renamed src dst] }, ?_, hlB, heB⟩
                    simp [movePath, bind_app, tryE_app, mkdirPrim_app,
                      getSt_app, pure_app, mvUpdateSkip, cloudToCloudMove,
                      renameFallback, unlinkPrim_app, chkFail,
                      srcFileOrRaise, modFS_app, emit_app, deleteBlob, hu,
                      hun, hnc, hint, hverb, heF, hiF, hisF, hlFd, hlFs,
                      hlED, hdec, hscl, hdcl, hfw, hs, hd]
            | azure =>
                cases p2 with
                | gs =>
                    refine ⟨{ st with
                      fs := (((mkdirEff st.fs dst.parent).erase dst).erase
                        src).set dst (.file cs ms),
                      trace := st.trace ++ [.deleted dst,
                        .renamed src dst] }, ?_, hlB, heB⟩
                    simp [movePath, bind_app, tryE_app, mkdirPrim_app,
                      getSt_app, pure_app, mvUpdateSkip, cloudToCloudMove,
                      renameFallback, unlinkPrim_app, chkFail,
                      srcFileOrRaise, modFS_app, emit_app, deleteBlob, hu,
                      hun, hnc, hint, hverb, heF, hiF, hisF, hlFd, hlFs,
                      hlED, hdec, hscl, hdcl, hfw, hs, hd]
                | s3 =>
                    refine ⟨{ st with
                      fs := (((mkdirEff st.fs dst.parent).erase dst).erase
                        src).set dst (.file cs ms),
                      trace := st.trace ++ [.deleted dst,
                        .renamed src dst] }, ?_, hlB, heB⟩
                    simp [movePath, bind_app, tryE_app, mkdirPrim_app,
                      getSt_app, pure_app, mvUpdateSkip, cloudToCloudMove,
                      renameFallback, unlinkPrim_app, chkFail,
                      srcFileOrRaise, modFS_app, emit_app, deleteBlob, hu,
                      hun, hnc, hint, hverb, heF, hiF, hisF, hlFd, hlFs,
                      hlED, hdec, hscl, hdcl, hfw, hs, hd]
                | azure =>
                    refine ⟨{ st with
                      fs := (((mkdirEff st.fs dst.parent).erase dst).set
                        dst (.file cs ms)).erase src,
                      trace := st.trace ++ [.deleted dst,
                        .startedCopy src dst, .slept, .deleted src] },
                      ?_, hlC, heC⟩
                    simp [movePath, bind_app, tryE_app, mkdirPrim_app,
                      getSt_app, pure_app, mvUpdateSkip, cloudToCloudMove,
                      nativeStartCopy, sleepBrief, unlinkPrim_app, chkFail,
                      srcFileOrRaise, modFS_app, emit_app, deleteBlob, hu,
                      hun, hnc, hint, hverb, heF, hiF, hisF, hlFd, hlFs,
                      hlED, hdec, hscl, hdcl, hfw, hs, hd]

/-- Witness for C2: `-u` move of local `/s.txt` (mtime 10) over local
`/d.txt` (mtime 5) proceeds; the destination receives the source content
and the source is gone. -/
theorem cloudsh_c2_witness :
    FS.lookup [(locP ["s.txt"], Node.file "new" 10),
        (locP ["d.txt"], Node.file "old" 5)] (locP ["s.txt"]) =
      some (.file "new" 10) ∧
    (10 : Int) > 5 ∧
    (∃ st' : St,
      movePath 1 (mvFlags false true none) (locP ["s.txt"]) (locP ["d.txt"])
        (stOf [(locP ["s.txt"], .file "new" 10),
          (locP ["d.txt"], .file "old" 5)]) = .ok st' () ∧
      FS.lookup st'.fs (locP ["d.txt"]) = some (.file "new" 10) ∧
      fsExists st'.fs (locP ["s.txt"]) = false) :=
  ⟨rfl, by decide,
   (cloudsh_c2_update_policy 0 (mvFlags false true none) (locP ["s.txt"])
     (locP ["d.txt"])
     (stOf [(locP ["s.txt"], .file "new" 10),
       (locP ["d.txt"], .file "old" 5)]) "new" "old" 10 5
     (Or.inl rfl) (by decide) rfl rfl rfl rfl rfl (by decide) (by decide)
     rfl rfl rfl rfl rfl).2 (by decide)⟩

/-! Support lemmas for the recursive-move theorem (C4). -/

theorem lookup_isSome_of_mem {fs : FS} {e : CPath × Node} {q : CPath}
    (hm : e ∈ fs) (hq : e.1 = q) : (FS.lookup fs q).isSome = true := by
  induction fs with
  | nil => simp at hm
  | cons x fs ih =>
      rcases List.mem_cons.mp hm with hx | hx
      · subst hx
        simp [FS.lookup, hq]
      · by_cases h1 : x.1 = q
        · simp [FS.lookup, h1]
        · simp only [FS.lookup, if_neg h1]
          exact ih hx

theorem lookup_some_mem {fs : FS} {q : CPath} {n : Node}
    (h : FS.lookup fs q = some n) : ∃ e ∈ fs, e.1 = q := by
  induction fs with
  | nil => simp [FS.lookup] at h
  | cons x fs ih =>
      by_cases h1 : x.1 = q
      · exact ⟨x, by simp, h1⟩
      · simp only [FS.lookup, if_neg h1] at h
        rcases ih h with ⟨e, he, heq⟩
        exact ⟨e, by simp [he], heq⟩

theorem hasDesc_exists_mem {fs : FS} {p : CPath}
    (h : FS.hasDesc fs p = true) : ∃ e ∈ fs, under e.1 p = true := by
  induction fs with
  | nil => simp [FS.hasDesc] at h
  | cons x fs ih =>
      rcases Bool.or_eq_true_iff.mp (by simpa [FS.hasDesc] using h) with
        hx | hx
      · exact ⟨x, by simp, hx⟩
      · rcases ih hx with ⟨e, he, heq⟩
        exact ⟨e, by simp [he], heq⟩

theorem lookup_none_of_no_desc {fs : FS} {p q : CPath}
    (hd : FS.hasDesc fs p = false) (hu : under q p = true) :
    FS.lookup fs q = none := by
  cases hl : FS.lookup fs q with
  | none => rfl
  | some n =>
      rcases lookup_some_mem hl with ⟨e, he, heq⟩
      rw [hasDesc_of_mem_under he (heq ▸ hu)] at hd
      exact Bool.noConfusion hd

theorem lookup_filter_none_of_none {fs : FS} (f : CPath × Node → Bool)
    {q : CPath} (h : FS.lookup fs q = none) :
    FS.lookup (fs.filter f) q = none := by
  cases hl : FS.lookup (fs.filter f) q with
  | none => rfl
  | some n =>
      rcases lookup_some_mem hl with ⟨e, he, heq⟩
      have := lookup_isSome_of_mem (List.mem_of_mem_filter he) heq
      rw [h] at this
      simp at this

theorem lookup_filter_isSome {fs : FS} {f : CPath × Node → Bool} {q : CPath}
    (h : (FS.lookup (fs.filter f) q).isSome = true) :
    (FS.lookup fs q).isSome = true := by
  cases hl : FS.lookup (fs.filter f) q with
  | none => rw [hl] at h; simp at h
  | some n =>
      rcases lookup_some_mem hl with ⟨e, he, heq⟩
      exact lookup_isSome_of_mem (List.mem_of_mem_filter he) heq

theorem lookup_erase_none_of_none {fs : FS} {p q : CPath}
    (h : FS.lookup fs q = none) : FS.lookup (fs.erase p) q = none :=
  lookup_filter_none_of_none _ h

theorem lookup_erase_isSome {fs : FS} {p q : CPath}
    (h : (FS.lookup (fs.erase p) q).isSome = true) :
    (FS.lookup fs q).isSome = true := lookup_filter_isSome h

theorem lookup_set_isSome_inv {fs : FS} {p q : CPath} {n : Node}
    (h : (FS.lookup (fs.set p n) q).isSome = true) :
    (FS.lookup fs q).isSome = true ∨ q = p := by
  by_cases hq : q = p
  · exact Or.inr hq
  · rw [lookup_set_ne fs n hq] at h
    exact Or.inl h

theorem lookup_set_none_of_none {fs : FS} {p q : CPath} {n : Node}
    (h : FS.lookup fs q = none) (hq : q ≠ p) :
    FS.lookup (fs.set p n) q = none := by
  rw [lookup_set_ne fs n hq]; exact h

theorem under_trans {q c p : CPath} (h1 : under q c = true)
    (h2 : under c p = true) : under q p = true := by
  rcases under_iff.mp h1 with ⟨hs1, hp1, hl1⟩
  rcases under_iff.mp h2 with ⟨hs2, hp2, hl2⟩
  exact under_iff.mpr ⟨hs1.trans hs2, hp2.trans hp1, lt_trans hl2 hl1⟩

theorem atUnder_under_trans {q c p : CPath} (h1 : atUnder q c = true)
    (h2 : under c p = true) : under q p = true := by
  rw [atUnder] at h1
  rcases Bool.or_eq_true_iff.mp h1 with h | h
  · rw [of_decide_eq_true h]; exact h2
  · exact under_trans h h2

theorem atUnder_of_under {q p : CPath} (h : under q p = true) :
    atUnder q p = true := by simp [atUnder, h]

theorem isCloud_child (p : CPath) (n : String) :
    (p.child n).isCloud = p.isCloud := rfl

theorem mkdirEff_cloud {fs : FS} {p : CPath} (h : p.isCloud = true) :
    mkdirEff fs p = fs := by
  cases p with
  | mk sc segs =>
      cases sc with
      | loc => simp [CPath.isCloud] at h
      | cloud pr b => rfl

theorem mem_iterdir_under {fs : FS} {p c : CPath}
    (h : c ∈ fs.iterdir p) : under c p = true := by
  rw [FS.iterdir, List.mem_dedup] at h
  rcases List.mem_filterMap.mp h with ⟨e, hem, he⟩
  by_cases hu : under e.1 p
  · simp only [hu, if_true] at he
    cases hg : e.1.segs.get? p.segs.length with
    | none => rw [hg] at he; simp at he
    | some n =>
        rw [hg] at he
        simp only [Option.some.injEq] at he
        rw [← he]
        exact under_child_self p n
  · simp [hu] at he

theorem iterdir_covers {fs : FS} {src q : CPath} {n : Node}
    (hl : FS.lookup fs q = some n) (hu : under q src = true) :
    (src.child (q.segs.getD src.segs.length "")) ∈ fs.iterdir src ∧
      atUnder q (src.child (q.segs.getD src.segs.length "")) = true := by
  rcases under_iff.mp hu with ⟨hs, hpre, hlen⟩
  rcases hpre with ⟨t, ht⟩
  have htne : t ≠ [] := by
    intro h0
    rw [h0, List.append_nil] at ht
    rw [ht] at hlen
    omega
  rcases List.exists_cons_of_ne_nil htne with ⟨hd, tl, htl⟩
  have hget : q.segs.get? src.segs.length = some hd := by
    rw [← ht, htl]
    rw [List.get?_append_right (le_refl _)]
    simp
  have hgetD : q.segs.getD src.segs.length "" = hd := by
    rw [List.getD, hget]; rfl
  constructor
  · rw [FS.iterdir, List.mem_dedup]
    rcases lookup_some_mem hl with ⟨e, hem, heq⟩
    refine List.mem_filterMap.mpr ⟨e, hem, ?_⟩
    rw [heq, if_pos hu, hget, hgetD]
  · rw [hgetD, atUnder]
    by_cases hq : q = src.child hd
    · simp [hq]
    · have hunder : under q (src.child hd) = true := by
        refine under_iff.mpr ⟨hs, ?_, ?_⟩
        · refine ⟨tl, ?_⟩
          rw [CPath.child]
          simp only [List.append_assoc, List.cons_append, List.nil_append]
          rw [← htl, ht]
        · rcases lt_or_le (src.segs.length + 1) q.segs.length with hlt | hle
          · simpa [CPath.child] using hlt
          · exfalso
            apply hq
            have hq1 : q.segs.length = src.segs.length + 1 := by omega
            have hl0 : tl.length = 0 := by
              have h2 := congrArg List.length ht
              rw [htl] at h2
              simp at h2
              omega
            have ht0 : t = [hd] := by
              rw [htl, List.length_eq_zero.mp hl0]
            have hqsegs : q.segs = src.segs ++ [hd] := by rw [← ht, ht0]
            cases q with
            | mk qs qsegs =>
                simp only [CPath.child, CPath.mk.injEq]
                exact ⟨hs, hqsegs⟩
      simp [hunder]

/-! Effect of a single cloud-to-cloud file move (all provider pairs):
the source entry is gone, and new entries appear only at the destination. -/

theorem shapeA_lookup_src {fs : FS} {src dst : CPath} {n : Node}
    (hne : src ≠ dst) :
    FS.lookup ((fs.erase src).set dst n) src = none := by
  rw [lookup_set_ne _ n hne, lookup_erase_self]

theorem shapeA_addsOnly {fs : FS} {src dst : CPath} {n : Node} :
    ∀ q : CPath, (FS.lookup ((fs.erase src).set dst n) q).isSome = true →
      (FS.lookup fs q).isSome = true ∨ q = dst := by
  intro q hq
  rcases lookup_set_isSome_inv hq with h | h
  · exact Or.inl (lookup_erase_isSome h)
  · exact Or.inr h

theorem shapeB_lookup_src {fs : FS} {src dst : CPath} {n : Node} :
    FS.lookup ((fs.set dst n).erase src) src = none := lookup_erase_self _ _

theorem shapeB_addsOnly {fs : FS} {src dst : CPath} {n : Node} :
    ∀ q : CPath, (FS.lookup ((fs.set dst n).erase src) q).isSome = true →
      (FS.lookup fs q).isSome = true ∨ q = dst := by
  intro q hq
  rcases lookup_set_isSome_inv (lookup_erase_isSome hq) with h | h
  · exact Or.inl h
  · exact Or.inr h

theorem ctcm_effect {src dst : CPath} {st st' : St} {u : Unit}
    (hne : src ≠ dst)
    (h : cloudToCloudMove src dst st = .ok st' u) :
    FS.lookup st'.fs src = none ∧
    (∀ q : CPath, (FS.lookup st'.fs q).isSome = true →
      (FS.lookup st.fs q).isSome = true ∨ q = dst) := by
  have hgen : ∀ m : M Unit,
      (m = nativeMove src dst ∨ m = renameFallback src dst ∨
       m = (do nativeCopy src dst; deleteBlob src) ∨
       m = (do nativeStartCopy src dst; sleepBrief; deleteBlob src)) →
      m st = .ok st' u →
      FS.lookup st'.fs src = none ∧
      (∀ q : CPath, (FS.lookup st'.fs q).isSome = true →
        (FS.lookup st.fs q).isSome = true ∨ q = dst) := by
    intro m hm hr
    by_cases hf : dst ∈ st.env.failWrites
    · exfalso
      rcases hm with hm | hm | hm | hm <;>
        (subst hm
         simp [nativeMove, renameFallback, nativeCopy, nativeStartCopy,
           bind_app, chkFail, hf] at hr)
    · cases hsl : FS.lookup st.fs src with
      | none =>
          exfalso
          rcases hm with hm | hm | hm | hm <;>
            (subst hm
             simp [nativeMove, renameFallback, nativeCopy, nativeStartCopy,
               bind_app, chkFail, srcFileOrRaise, hf, hsl] at hr)
      | some nd =>
          cases nd with
          | dir =>
              exfalso
              rcases hm with hm | hm | hm | hm <;>
                (subst hm
                 simp [nativeMove, renameFallback, nativeCopy,
                   nativeStartCopy, bind_app, chkFail, srcFileOrRaise, hf,
                   hsl] at hr)
          | file c mt =>
              rcases hm with hm | hm | hm | hm
              · subst hm
                simp [nativeMove, bind_app, chkFail, srcFileOrRaise,
                  modFS_app, emit_app, hf, hsl] at hr
                obtain ⟨rfl, rfl⟩ := hr
                exact ⟨shapeA_lookup_src hne, shapeA_addsOnly⟩
              · subst hm
                simp [renameFallback, bind_app, chkFail, srcFileOrRaise,
                  modFS_app, emit_app, hf, hsl] at hr
                obtain ⟨rfl, rfl⟩ := hr
                exact ⟨shapeA_lookup_src hne, shapeA_addsOnly⟩
              · subst hm
                simp [nativeCopy, deleteBlob, bind_app, chkFail,
                  srcFileOrRaise, modFS_app, emit_app, hf, hsl] at hr
                obtain ⟨rfl, rfl⟩ := hr
                exact ⟨shapeB_lookup_src, shapeB_addsOnly⟩
              · subst hm
                simp [nativeStartCopy, sleepBrief, deleteBlob, bind_app,
                  chkFail, srcFileOrRaise, modFS_app, emit_app, hf, hsl]
                  at hr
                obtain ⟨rfl, rfl⟩ := hr
                exact ⟨shapeB_lookup_src, shapeB_addsOnly⟩
  cases hs : src.scheme with
  | loc =>
      rw [cloudToCloudMove, hs] at h
      cases hd : dst.scheme with
      | loc =>
          rw [hd] at h
          exact hgen _ (Or.inr (Or.inl rfl))
            (show renameFallback src dst st = .ok st' u from h)
      | cloud p2 b2 =>
          rw [hd] at h
          cases p2 <;>
            exact hgen _ (Or.inr (Or.inl rfl))
              (show renameFallback src dst st = .ok st' u from h)
  | cloud p1 b1 =>
      rw [cloudToCloudMove, hs] at h
      cases hd : dst.scheme with
      | loc =>
          rw [hd] at h
          cases p1 <;>
            exact hgen _ (Or.inr (Or.inl rfl))
              (show renameFallback src dst st = .ok st' u from h)
      | cloud p2 b2 =>
          rw [hd] at h
          cases p1 with
          | gs =>
              cases p2 with
              | gs =>
                  have h2 : (if b1 = b2 then nativeMove src dst
                      else do
                        nativeCopy src dst
                        deleteBlob src) st = .ok st' u := h
                  by_cases hb : b1 = b2
                  · rw [if_pos hb] at h2
                    exact hgen _ (Or.inl rfl) h2
                  · rw [if_neg hb] at h2
                    exact hgen _ (Or.inr (Or.inr (Or.inl rfl))) h2
              | s3 =>
                  exact hgen _ (Or.inr (Or.inl rfl))
                    (show renameFallback src dst st = .ok st' u from h)
              | azure =>
                  exact hgen _ (Or.inr (Or.inl rfl))
                    (show renameFallback src dst st = .ok st' u from h)
          | s3 =>
              cases p2 with
              | gs =>
                  exact hgen _ (Or.inr (Or.inl rfl))
                    (show renameFallback src dst st = .ok st' u from h)
              | s3 =>
                  exact hgen _ (Or.inr (Or.inr (Or.inl rfl)))
                    (show (do nativeCopy src dst
                              deleteBlob src : M Unit) st = .ok st' u from h)
              | azure =>
                  exact hgen _ (Or.inr (Or.inl rfl))
                    (show renameFallback src dst st = .ok st' u from h)
          | azure =>
              cases p2 with
              | gs =>
                  exact hgen _ (Or.inr (Or.inl rfl))
                    (show renameFallback src dst st = .ok st' u from h)
              | s3 =>
                  exact hgen _ (Or.inr (Or.inl rfl))
                    (show renameFallback src dst st = .ok st' u from h)
              | azure =>
                  exact hgen _ (Or.inr (Or.inr (Or.inr rfl)))
                    (show (do nativeStartCopy src dst
                              sleepBrief
                              deleteBlob src : M Unit) st = .ok st' u from h)

/-- Inversion of a successful bind: both halves succeeded in order. -/
theorem Mbind_ok_inv {α β : Type} {m : M α} {f : α → M β} {s s' : St}
    {b : β} (h : (m >>= f) s = .ok s' b) :
    ∃ s1 a, m s = .ok s1 a ∧ f a s1 = .ok s' b := by
  rw [bind_app] at h
  cases hm : m s with
  | ok s1 a =>
      rw [hm] at h
      exact ⟨s1, a, rfl, h⟩
  | exit s1 c => rw [hm] at h; exact absurd h (by simp)
  | exn s1 e => rw [hm] at h; exact absurd h (by simp)

/-- Effect of `rmdirPrim` on a state. -/
theorem rmdirPrim_app (p : CPath) (s : St) :
    rmdirPrim p s = .ok { s with fs := s.fs.erase p } () := rfl

/-- The core correctness of the recursive cloud-directory move
(`_move_cloud_dir`): with no skipping policy in force (no `no_clobber`, no
`--update=older`), a cloud destination, and the destination subtree
disjoint from the source subtree, a successful run leaves no entry at or
below the source (first conclusion) and only ever adds entries below the
destination (second conclusion); the companion statement covers the child
loop. -/
theorem mcd_spec : ∀ fuel : Nat,
    (∀ (args : MvArgs) (src dst : CPath) (st st' : St) (u : Unit),
      args.no_clobber = false → args.update ≠ some "older" →
      dst.isCloud = true →
      (∀ q : CPath, atUnder q src = true → atUnder q dst = true → False) →
      moveCloudDir fuel args src dst st = .ok st' u →
      (∀ q : CPath, atUnder q src = true → FS.lookup st'.fs q = none) ∧
      (∀ q : CPath, (FS.lookup st'.fs q).isSome = true →
        (FS.lookup st.fs q).isSome = true ∨ atUnder q dst = true)) ∧
    (∀ (args : MvArgs) (src dst : CPath) (L : List CPath) (st st' : St)
        (u : Unit),
      args.no_clobber = false → args.update ≠ some "older" →
      dst.isCloud = true →
      (∀ c ∈ L, under c src = true) →
      (∀ q : CPath, atUnder q src = true → atUnder q dst = true → False) →
      moveCDChildren fuel args dst L st = .ok st' u →
      (∀ c ∈ L, ∀ q : CPath, atUnder q c = true →
        FS.lookup st'.fs q = none) ∧
      (∀ q : CPath, (FS.lookup st'.fs q).isSome = true →
        (FS.lookup st.fs q).isSome = true ∨ atUnder q dst = true)) := by
  intro fuel
  induction fuel with
  | zero =>
      constructor
      · intro args src dst st st' u _ _ _ _ hok
        rw [moveCloudDir, raiseExn_app] at hok
        exact absurd hok (by simp)
      · intro args src dst L st st' u _ _ _ _ _ hok
        rw [moveCDChildren, raiseExn_app] at hok
        exact absurd hok (by simp)
  | succ fuel ih =>
      constructor
      · intro args src dst st st' u hnc hup hdc hdisj hok
        simp only [moveCloudDir] at hok
        obtain ⟨s1, v1, hmk, hok2⟩ := Mbind_ok_inv hok
        rw [mkdirPrim_app, mkdirEff_cloud hdc] at hmk
        have hsteta : ({ st with fs := st.fs } : St) = st := rfl
        rw [hsteta] at hmk
        cases hmk
        obtain ⟨s2, v2, hget, hok3⟩ := Mbind_ok_inv hok2
        rw [getSt_app] at hget
        cases hget
        obtain ⟨s3, v3, hch, hrm⟩ := Mbind_ok_inv hok3
        have hmem : ∀ c ∈ st.fs.iterdir src, under c src = true :=
          fun c hc => mem_iterdir_under hc
        obtain ⟨hcl, hadd⟩ :=
          ih.2 args src dst (st.fs.iterdir src) st s3 v3 hnc hup hdc hmem
            hdisj hch
        rw [rmdirPrim_app] at hrm
        cases hrm
        refine ⟨?_, ?_⟩
        · intro q hq
          rw [atUnder] at hq
          rcases Bool.or_eq_true_iff.mp hq with hq1 | hq1
          · rw [of_decide_eq_true hq1]
            exact lookup_erase_self _ _
          · have hqd : atUnder q dst = true → False :=
              fun hc => hdisj q (atUnder_of_under hq1) hc
            have h3 : FS.lookup s3.fs q = none := by
              cases hl0 : FS.lookup st.fs q with
              | some n =>
                  obtain ⟨hIT, hcov⟩ := iterdir_covers hl0 hq1
                  exact hcl _ hIT q hcov
              | none =>
                  cases hl3 : FS.lookup s3.fs q with
                  | none => rfl
                  | some n =>
                      rcases hadd q (by rw [hl3]; rfl) with h | h
                      · rw [hl0] at h; simp at h
                      · exact (hqd h).elim
            exact lookup_erase_none_of_none h3
        · intro q hq
          exact hadd q (lookup_erase_isSome hq)
      · intro args src dst L st st' u hnc hup hdc hmem hdisj hok
        cases L with
        | nil =>
            rw [moveCDChildren, pure_app] at hok
            cases hok
            exact ⟨by simp, fun q hq => Or.inl hq⟩
        | cons item rest =>
            simp only [moveCDChildren] at hok
            obtain ⟨s1, v1, hget, hok2⟩ := Mbind_ok_inv hok
            rw [getSt_app] at hget
            cases hget
            obtain ⟨s2, v2, hbr, hrest⟩ := Mbind_ok_inv hok2
            have hItem : under item src = true := hmem item (by simp)
            have hCov : ∀ q, atUnder q item = true → atUnder q src = true :=
              fun q hq => atUnder_of_under (atUnder_under_trans hq hItem)
            have hDstItem : ∀ q, atUnder q (dst.child item.name) = true →
                atUnder q dst = true :=
              fun q hq => atUnder_of_under
                (atUnder_under_trans hq (under_child_self dst item.name))
            have hDisjItem : ∀ q, atUnder q item = true →
                atUnder q (dst.child item.name) = true → False :=
              fun q h1 h2 => hdisj q (hCov q h1) (hDstItem q h2)
            have hItemNe : item ≠ dst.child item.name := by
              intro he
              exact hDisjItem item (atUnder_self item)
                (by rw [← he]; exact atUnder_self item)
            have hmemR : ∀ c ∈ rest, under c src = true :=
              fun c hc => hmem c (by simp [hc])
            by_cases hdir : fsIsDir st.fs item = true
            · rw [if_pos hdir] at hbr
              obtain ⟨hclI, haddI⟩ := ih.1 args item (dst.child item.name)
                st s2 v2 hnc hup (by rw [isCloud_child]; exact hdc)
                hDisjItem hbr
              obtain ⟨hclR, haddR⟩ := ih.2 args src dst rest s2 st' u hnc
                hup hdc hmemR hdisj hrest
              refine ⟨?_, ?_⟩
              · intro c hc q hq
                rcases List.mem_cons.mp hc with hc1 | hc1
                · subst hc1
                  have h1 : FS.lookup s2.fs q = none := hclI q hq
                  cases hl3 : FS.lookup st'.fs q with
                  | none => rfl
                  | some n =>
                      rcases haddR q (by rw [hl3]; rfl) with h | h
                      · rw [h1] at h; simp at h
                      · exact (hdisj q (hCov q hq) h).elim
                · exact hclR c hc1 q hq
              · intro q hq
                rcases haddR q hq with h | h
                · rcases haddI q h with h2 | h2
                  · exact Or.inl h2
                  · exact Or.inr (hDstItem q h2)
                · exact Or.inr h
            · rw [if_neg hdir] at hbr
              have hdirF : fsIsDir st.fs item = false := by
                simpa using hdir
              have hhd : FS.hasDesc st.fs item = false := by
                rw [fsIsDir] at hdirF
                exact (Bool.or_eq_false_iff.mp hdirF).2
              obtain ⟨s3, go, hgo, hk⟩ := Mbind_ok_inv hbr
              by_cases hex : fsExists st.fs (dst.child item.name) = true
              · simp [bind_app, pure_app, unlinkPrim_app, hex, hnc, hup]
                  at hgo
                obtain ⟨rfl, rfl⟩ := hgo
                simp only [if_pos rfl] at hk
                obtain ⟨hgone, hadd1⟩ := ctcm_effect hItemNe hk
                obtain ⟨hclR, haddR⟩ := ih.2 args src dst rest s2 st' u
                  hnc hup hdc hmemR hdisj hrest
                have hstep : ∀ q, atUnder q item = true →
                    FS.lookup s2.fs q = none := by
                  intro q hq
                  rw [atUnder] at hq
                  rcases Bool.or_eq_true_iff.mp hq with hq1 | hq1
                  · rw [of_decide_eq_true hq1]; exact hgone
                  · have h0 : FS.lookup st.fs q = none :=
                      lookup_none_of_no_desc hhd hq1
                    cases hl2 : FS.lookup s2.fs q with
                    | none => rfl
                    | some n =>
                        rcases hadd1 q (by rw [hl2]; rfl) with h | h
                        · have := lookup_erase_isSome
                            (p := dst.child item.name) (by
                              exact h)
                          rw [h0] at this; simp at this
                        · exact (hDisjItem q
                            (atUnder_of_under hq1)
                            (by rw [h]; exact atUnder_self _)).elim
                refine ⟨?_, ?_⟩
                · intro c hc q hq
                  rcases List.mem_cons.mp hc with hc1 | hc1
                  · subst hc1
                    have h1 := hstep q hq
                    cases hl3 : FS.lookup st'.fs q with
                    | none => rfl
                    | some n =>
                        rcases haddR q (by rw [hl3]; rfl) with h | h
                        · rw [h1] at h; simp at h
                        · exact (hdisj q (hCov q hq) h).elim
                  · exact hclR c hc1 q hq
                · intro q hq
                  rcases haddR q hq with h | h
                  · rcases hadd1 q h with h2 | h2
                    · exact Or.inl (lookup_erase_isSome h2)
                    · exact Or.inr (hDstItem q
                        (by rw [h2]; exact atUnder_self _))
                  · exact Or.inr h
              · simp [bind_app, pure_app, hex] at hgo
                obtain ⟨rfl, rfl⟩ := hgo
                simp only [if_pos rfl] at hk
                obtain ⟨hgone, hadd1⟩ := ctcm_effect hItemNe hk
                obtain ⟨hclR, haddR⟩ := ih.2 args src dst rest s2 st' u
                  hnc hup hdc hmemR hdisj hrest
                have hstep : ∀ q, atUnder q item = true →
                    FS.lookup s2.fs q = none := by
                  intro q hq
                  rw [atUnder] at hq
                  rcases Bool.or_eq_true_iff.mp hq with hq1 | hq1
                  · rw [of_decide_eq_true hq1]; exact hgone
                  · have h0 : FS.lookup st.fs q = none :=
                      lookup_none_of_no_desc hhd hq1
                    cases hl2 : FS.lookup s2.fs q with
                    | none => rfl
                    | some n =>
                        rcases hadd1 q (by rw [hl2]; rfl) with h | h
                        · rw [h0] at h; simp at h
                        · exact (hDisjItem q
                            (atUnder_of_under hq1)
                            (by rw [h]; exact atUnder_self _)).elim
                refine ⟨?_, ?_⟩
                · intro c hc q hq
                  rcases List.mem_cons.mp hc with hc1 | hc1
                  · subst hc1
                    have h1 := hstep q hq
                    cases hl3 : FS.lookup st'.fs q with
                    | none => rfl
                    | some n =>
                        rcases haddR q (by rw [hl3]; rfl) with h | h
                        · rw [h1] at h; simp at h
                        · exact (hdisj q (hCov q hq) h).elim
                  · exact hclR c hc1 q hq
                · intro q hq
                  rcases haddR q hq with h | h
                  · rcases hadd1 q h with h2 | h2
                    · exact Or.inl h2
                    · exact Or.inr (hDstItem q
                        (by rw [h2]; exact atUnder_self _))
                  · exact Or.inr h

/-! Claim C4. -/

/-- Source directory of the C4 concrete partial-failure scenario. -/
def c4src : CPath := gsP "b" ["d"]

/-- Destination directory of the C4 scenario. -/
def c4dstArg : CPath := gsP "b" ["e"]

/-- Initial filesystem of the C4 scenario: a cloud directory with three
blobs. -/
def c4fs : FS :=
  [(gsP "b" ["d", "a.txt"], .file "A" 1),
   (gsP "b" ["d", "b.txt"], .file "B" 1),
   (gsP "b" ["d", "c.txt"], .file "C" 1)]

/-- C4 failure environment: the provider rejects the transfer of the second
child destination. -/
def c4env : Env := ⟨false, [gsP "b" ["e", "b.txt"]], []⟩

/-- mv namespace of the C4 scenario: plain recursive move, no flags. -/
def c4margs : MvArgs := mvFlags false false none

/-- Final state of the C4 failing run: the first child stays moved, the
second and third children and hence the source directory remain, the
failure is on stderr and the command exited 1. -/
def c4stFail : St :=
  ⟨c4env,
   [(gsP "b" ["d", "b.txt"], .file "B" 1),
    (gsP "b" ["d", "c.txt"], .file "C" 1),
    (gsP "b" ["e", "a.txt"], .file "A" 1)],
   [.movedAtomic (gsP "b" ["d", "a.txt"]) (gsP "b" ["e", "a.txt"])],
   [mvCannotMoveMsg c4src c4dstArg "move rejected"],
   []⟩

/-- The C4 source and destination subtrees are disjoint. -/
theorem c4_disjoint : ∀ q : CPath, atUnder q c4src = true →
    atUnder q c4dstArg = true → False := by
  intro q h1 h2
  rw [atUnder] at h1 h2
  rcases Bool.or_eq_true_iff.mp h1 with ha | ha <;>
    rcases Bool.or_eq_true_iff.mp h2 with hb | hb
  · rw [of_decide_eq_true ha] at hb
    exact absurd (of_decide_eq_true hb) (by decide)
  · rw [of_decide_eq_true ha] at hb
    revert hb; decide
  · rw [of_decide_eq_true hb] at ha
    revert ha; decide
  · have ha3 : isSegPre ["d"] q.segs = true :=
      (Bool.and_eq_true_iff.mp (Bool.and_eq_true_iff.mp ha).1).2
    have hb3 : isSegPre ["e"] q.segs = true :=
      (Bool.and_eq_true_iff.mp (Bool.and_eq_true_iff.mp hb).1).2
    cases hq : q.segs with
    | nil =>
        rw [hq] at ha3
        exact absurd ha3 (by decide)
    | cons h t =>
        rw [hq] at ha3 hb3
        simp [isSegPre] at ha3 hb3
        rw [← ha3] at hb3
        exact absurd hb3 (by decide)

set_option maxHeartbeats 1600000 in
/-- C4: a recursive cloud-directory move removes the now-empty source
directory after all children have been relocated (first conjunct: every
successful `_move_cloud_dir` run with disjoint source and destination
subtrees and no skip policy leaves nothing at or below the source); and on
a child-transfer failure the source directory is not removed,
already-moved children stay moved, the failure is reported on stderr and
the command exits 1 without rolling back (remaining conjuncts: a concrete
three-child move whose second child transfer is rejected by the
provider). -/
theorem cloudsh_c4_dir_cleanup :
    (∀ (fuel : Nat) (args : MvArgs) (src dst : CPath) (st st' : St)
        (u : Unit),
      args.no_clobber = false → args.update ≠ some "older" →
      dst.isCloud = true →
      (∀ q : CPath, atUnder q src = true → atUnder q dst = true → False) →
      moveCloudDir fuel args src dst st = .ok st' u →
      fsExists st'.fs src = false) ∧
    movePath 9 c4margs c4src c4dstArg (stOfEnv c4env c4fs) =
      .exit c4stFail 1 ∧
    fsExists c4stFail.fs c4src = true ∧
    FS.lookup c4stFail.fs (gsP "b" ["e", "a.txt"]) = some (.file "A" 1) ∧
    FS.lookup c4stFail.fs (gsP "b" ["d", "a.txt"]) = none ∧
    FS.lookup c4stFail.fs (gsP "b" ["d", "b.txt"]) = some (.file "B" 1) ∧
    c4stFail.errs ≠ [] := by
  refine ⟨?_, by rfl, by decide, by decide, by decide, by decide, by
    simp [c4stFail]⟩
  intro fuel args src dst st st' u hnc hup hdc hdisj hok
  obtain ⟨hcl, _⟩ :=
    (mcd_spec fuel).1 args src dst st st' u hnc hup hdc hdisj hok
  rw [fsExists]
  apply Bool.or_eq_false_iff.mpr
  constructor
  · rw [hcl src (atUnder_self src)]; rfl
  · cases hhd : FS.hasDesc st'.fs src with
    | false => rfl
    | true =>
        obtain ⟨e, hm, hu⟩ := hasDesc_exists_mem hhd
        have h1 := hcl e.1 (atUnder_of_under hu)
        have h2 := lookup_isSome_of_mem hm rfl
        rw [h1] at h2
        simp at h2

/-- Final state of the C4 successful run used by the witness. -/
def c4stSucc : St :=
  ⟨env0,
   [(gsP "b" ["e", "a.txt"], .file "A" 1),
    (gsP "b" ["e", "b.txt"], .file "B" 1),
    (gsP "b" ["e", "c.txt"], .file "C" 1)],
   [.movedAtomic (gsP "b" ["d", "a.txt"]) (gsP "b" ["e", "a.txt"]),
    .movedAtomic (gsP "b" ["d", "b.txt"]) (gsP "b" ["e", "b.txt"]),
    .movedAtomic (gsP "b" ["d", "c.txt"]) (gsP "b" ["e", "c.txt"])],
   [], []⟩

set_option maxHeartbeats 1600000 in
/-- Witness for C4: the three-child move succeeds in a benign environment
and afterwards nothing exists at or below the source directory. -/
theorem cloudsh_c4_witness :
    moveCloudDir 9 c4margs c4src c4dstArg (stOf c4fs) = .ok c4stSucc () ∧
    fsExists c4stSucc.fs c4src = false := by
  have hrun : moveCloudDir 9 c4margs c4src c4dstArg (stOf c4fs) =
      .ok c4stSucc () := by rfl
  exact ⟨hrun, cloudsh_c4_dir_cleanup.1 9 c4margs c4src c4dstArg
    (stOf c4fs) c4stSucc () (by decide) (by decide) (by decide)
    c4_disjoint hrun⟩

/-! Claim C10. -/

/-- Strip trailing slashes from every path argument of a cp namespace
(the transformation the claim says is harmless). -/
def CpArgs.stripSlashes (a : CpArgs) : CpArgs :=
  { a with SOURCE := a.SOURCE.map rstripSlashes,
           DEST := rstripSlashes a.DEST,
           target_directory := a.target_directory.map rstripSlashes }

/-- Strip trailing slashes from every path argument of a mv namespace. -/
def MvArgs.stripSlashes (a : MvArgs) : MvArgs :=
  { a with SOURCE := a.SOURCE.map rstripSlashes,
           DEST := rstripSlashes a.DEST,
           target_directory := a.target_directory.map rstripSlashes }

/-- cp namespace of the C10 counterexample: `--target-directory=/`, whose
stripped form is the falsy empty string. -/
def c10cargs : CpArgs :=
  ⟨["/s.txt"], "/d", false, false, false, false, false, false, some "/",
   false, false, true⟩

/-- Initial filesystem of the C10 counterexample. -/
def c10fs : FS := [(locP ["s.txt"], .file "x" 1), (locP ["d"], .dir)]

/-- C10 environment variant: the working directory is `/w`. -/
def c10envW : Env := ⟨false, [], ["w"]⟩

/-- Final state of the C10 original-arguments run with working directory
`/`: `--target-directory=/` is truthy, but stripping at the use site
yields the empty string, which resolves to the working directory itself;
the copy of `/s.txt` onto `./s.txt` = `/s.txt` raises `SameFileError`
(an `OSError`), so the command reports `cannot copy` and exits 1. -/
def c10stA : St :=
  ⟨env0, c10fs, [],
   [cpCannotCopyMsg (locP ["s.txt"]) (locP ["s.txt"])
     "/s.txt and /s.txt are the same file"], []⟩

/-- Final state of the C10 pre-stripped run (either working directory):
`--target-directory=` is falsy, so DEST `/d` is used and `/d/s.txt` is
written. -/
def c10stB : St :=
  ⟨env0,
   [(locP ["s.txt"], .file "x" 1), (locP ["d"], .dir),
    (locP ["d", "s.txt"], .file "x" 1)],
   [.copied (locP ["s.txt"]) (locP ["d", "s.txt"])], [], []⟩

/-- Final state of the C10 original-arguments run with working directory
`/w`: the empty target string resolves to `/w`, which is created and
receives the working-directory-relative copy `/w/s.txt`. -/
def c10stC : St :=
  ⟨c10envW,
   [(locP ["s.txt"], .file "x" 1), (locP ["d"], .dir),
    (locP ["w"], .dir), (locP ["w", "s.txt"], .file "x" 1)],
   [.copied (locP ["s.txt"]) (locP ["w", "s.txt"])], [], []⟩

/-- Final state of the C10 pre-stripped run from working directory
`/w`. -/
def c10stD : St :=
  ⟨c10envW,
   [(locP ["s.txt"], .file "x" 1), (locP ["d"], .dir),
    (locP ["d", "s.txt"], .file "x" 1)],
   [.copied (locP ["s.txt"]) (locP ["d", "s.txt"])], [], []⟩

set_option maxHeartbeats 1600000 in
/-- C10 counterexample: the truthiness test `if args.target_directory:`
runs on the unstripped string (cp.py line 194), so `--target-directory=/`
(truthy) and its slash-stripped form `--target-directory=` (falsy) behave
differently.  The original invocation resolves
`AnyPath("/".rstrip("/"))` = `Path("")` = the working directory: with
working directory `/` the copy of `/s.txt` onto itself raises
`SameFileError` and the command exits 1 with `cannot copy`; with working
directory `/w` it writes the working-directory-relative `/w/s.txt`.  The
pre-stripped invocation instead falls back to DEST `/d` and writes
`/d/s.txt` in both environments. -/
theorem cloudsh_c10_counterexample :
    cpRun 9 c10cargs (stOf c10fs) = .exit c10stA 1 ∧
    cpRun 9 c10cargs.stripSlashes (stOf c10fs) = .ok c10stB () ∧
    cpRun 9 c10cargs (stOfEnv c10envW c10fs) = .ok c10stC () ∧
    cpRun 9 c10cargs.stripSlashes (stOfEnv c10envW c10fs) = .ok c10stD () ∧
    FS.lookup c10stB.fs (locP ["d", "s.txt"]) = some (.file "x" 1) ∧
    FS.lookup c10stC.fs (locP ["d", "s.txt"]) = none ∧
    FS.lookup c10stC.fs (locP ["w", "s.txt"]) = some (.file "x" 1) ∧
    c10stA.errs ≠ [] :=
  ⟨by rfl, by rfl, by rfl, by rfl, by decide, by decide, by decide, by
    simp [c10stA]⟩

theorem dropWhile_dropWhile (p : Char → Bool) :
    ∀ l : List Char, List.dropWhile p (List.dropWhile p l) =
      List.dropWhile p l := by
  intro l
  induction l with
  | nil => simp
  | cons a t ih =>
      by_cases h : p a = true
      · simp [List.dropWhile_cons, h, ih]
      · simp [List.dropWhile_cons, h]

theorem dropTrailingSlashes_idem (l : List Char) :
    dropTrailingSlashes (dropTrailingSlashes l) = dropTrailingSlashes l := by
  simp [dropTrailingSlashes, List.reverse_reverse, dropWhile_dropWhile]

theorem rstripSlashes_idem (s : String) :
    rstripSlashes (rstripSlashes s) = rstripSlashes s := by
  simp [rstripSlashes, dropTrailingSlashes_idem]

/-- Map a function over the returned value of a machine outcome. -/
def rMap (g : α → β) : R α → R β
  | .ok s a => .ok s (g a)
  | .exit s c => .exit s c
  | .exn s e => .exn s e

theorem bind_rMap (g : β → γ) (m : M α) (f1 : α → M β) (f2 : α → M γ)
    (st : St) (hf : ∀ a s, f2 a s = rMap g (f1 a s)) :
    (m >>= f2) st = rMap g ((m >>= f1) st) := by
  rw [bind_app, bind_app]
  cases m st <;> simp [rMap, hf]

theorem bind_pure_rMap (g : α → β) (m : M Unit) (a : α) (st : St) :
    (m >>= fun _ => pure (g a)) st =
      rMap g ((m >>= fun _ => pure a) st) := by
  rw [bind_app, bind_app]
  cases m st <;> simp [rMap, pure_app]

theorem tryE_rMap (g : α → β) (m1 : M α) (m2 : M β) (p : Exn → Bool)
    (h1 : Exn → M α) (h2 : Exn → M β) (st : St)
    (hm : m2 st = rMap g (m1 st))
    (hh : ∀ e s, h2 e s = rMap g (h1 e s)) :
    tryE m2 p h2 st = rMap g (tryE m1 p h1 st) := by
  rw [tryE_app, tryE_app, hm]
  cases m1 st with
  | ok s a => rfl
  | exit s c => rfl
  | exn s e =>
      by_cases hp : p e = true ∧ e ≠ .fuelExhausted
      · simp [rMap, hp, hh]
      · simp [rMap, hp]

theorem cp_main_strip (fuel : Nat)
    (ihc : ∀ (d : CPath) (a : CpArgs) (L : List CPath) (st : St),
      copyChildren fuel d a.stripSlashes L st =
        rMap CpArgs.stripSlashes (copyChildren fuel d a L st))
    (a : CpArgs) (src D : CPath) (st : St) :
    tryE
      (if fsIsDir st.fs src then
        if ¬ a.stripSlashes.recursive then do
          eprintLn (cpNoRecursiveMsg src)
          sysExit 1
        else do
          mkdirPrim D
          (if a.stripSlashes.verbose then printLn (cpCreatedDirMsg D)
           else pure ())
          let st2 ← getSt
          copyChildren fuel D a.stripSlashes (st2.fs.iterdir src)
      else do
        (if a.stripSlashes.verbose then printLn (cpVerboseMsg src D)
         else pure ())
        tryE (copyDispatch src D a.stripSlashes)
          (fun e => decide (e = .overwriteNewerCloud))
          (fun _ => copyNewerHandler src D a.stripSlashes)
        pure a.stripSlashes)
      Exn.isOsError
      (fun e => do
        eprintLn (cpCannotCopyMsg src D (reasonOf e))
        sysExit 1) st =
    rMap CpArgs.stripSlashes (tryE
      (if fsIsDir st.fs src then
        if ¬ a.recursive then do
          eprintLn (cpNoRecursiveMsg src)
          sysExit 1
        else do
          mkdirPrim D
          (if a.verbose then printLn (cpCreatedDirMsg D)
           else pure ())
          let st2 ← getSt
          copyChildren fuel D a (st2.fs.iterdir src)
      else do
        (if a.verbose then printLn (cpVerboseMsg src D)
         else pure ())
        tryE (copyDispatch src D a)
          (fun e => decide (e = .overwriteNewerCloud))
          (fun _ => copyNewerHandler src D a)
        pure a)
      Exn.isOsError
      (fun e => do
        eprintLn (cpCannotCopyMsg src D (reasonOf e))
        sysExit 1) st) := by
  have hrec : a.stripSlashes.recursive = a.recursive := rfl
  have hverb : a.stripSlashes.verbose = a.verbose := rfl
  by_cases hF : fsIsDir st.fs src = true
  · simp only [if_pos hF, hrec, hverb]
    by_cases hG : a.recursive = true
    · have hG2 : ¬¬(a.recursive = true) := fun hc => hc hG
      simp only [if_neg hG2]
      refine tryE_rMap _ _ _ _ _ _ st ?_ (fun e s => rfl)
      refine bind_rMap _ _ _ _ st (fun x s1 => ?_)
      refine bind_rMap _ _ _ _ s1 (fun y s2 => ?_)
      refine bind_rMap _ _ _ _ s2 (fun st2 s3 => ?_)
      exact ihc D a (st2.fs.iterdir src) s3
    · have hG3 : a.recursive = false := by simpa using hG
      simp [hG3, tryE_app, bind_app, eprintLn_app, sysExit_app, rMap]
  · simp only [if_neg hF, hverb]
    refine tryE_rMap _ _ _ _ _ _ st ?_ (fun e s => rfl)
    refine bind_rMap _ _ _ _ st (fun x s1 => ?_)
    exact bind_pure_rMap CpArgs.stripSlashes
      (tryE (copyDispatch src D a)
        (fun e => decide (e = .overwriteNewerCloud))
        (fun _ => copyNewerHandler src D a)) a s1

theorem cp_strip_comm : ∀ fuel : Nat,
    (∀ (a : CpArgs) (src dst0 : CPath) (st : St),
      copyPath fuel a.stripSlashes src dst0 st =
        rMap CpArgs.stripSlashes (copyPath fuel a src dst0 st)) ∧
    (∀ (d : CPath) (a : CpArgs) (L : List CPath) (st : St),
      copyChildren fuel d a.stripSlashes L st =
        rMap CpArgs.stripSlashes (copyChildren fuel d a L st)) := by
  intro fuel
  induction fuel with
  | zero => exact ⟨fun a src dst0 st => rfl, fun d a L st => rfl⟩
  | succ fuel ih =>
      constructor
      · intro a src dst0 st
        simp only [copyPath]
        simp only [bind_app, getSt_app]
        by_cases hA : fsExists st.fs dst0.parent = true
        · have hA2 : ¬¬(fsExists st.fs dst0.parent = true) := fun hc => hc hA
          simp only [if_neg hA2]
          set D := (if fsExists st.fs dst0 = true ∧ fsIsDir st.fs dst0 = true ∧ ¬fsIsDir st.fs src = true then dst0.child src.name else dst0) with hDdef
          by_cases hB : fsExists st.fs D = true
          · simp only [if_pos hB]
            by_cases hC : a.no_clobber = true
            · have hC2 : a.stripSlashes.no_clobber = true := hC
              simp only [if_pos hC2, if_pos hC]
              rfl
            · have hC2 : ¬(a.stripSlashes.no_clobber = true) := hC
              simp only [if_neg hC2, if_neg hC]
              by_cases hI : a.interactive = true ∧ ¬(a.interactiveAnswer = true)
              · have hI2 : a.stripSlashes.interactive = true ∧
                    ¬(a.stripSlashes.interactiveAnswer = true) := hI
                simp only [if_pos hI2, if_pos hI]
                rfl
              · have hI2 : ¬(a.stripSlashes.interactive = true ∧
                    ¬(a.stripSlashes.interactiveAnswer = true)) := hI
                simp only [if_neg hI2, if_neg hI]
                by_cases hE : fsIsDir st.fs D = true ∧ ¬(fsIsDir st.fs src = true)
                · simp only [if_pos hE]
                  rfl
                · simp only [if_neg hE]
                  exact cp_main_strip fuel ih.2 { a with force := true } src D st
          · simp only [if_neg hB]
            exact cp_main_strip fuel ih.2 a src D st
        · simp [hA, bind_app, eprintLn_app, sysExit_app, rMap]
      · intro d a L st
        cases L with
        | nil => rfl
        | cons item rest =>
            simp only [copyChildren]
            rw [bind_app, bind_app, ih.1 a item (d.child item.name) st]
            cases h : copyPath fuel a item (d.child item.name) st with
            | ok s1 a1 =>
                simp only [rMap]
                exact ih.2 d a1 rest s1
            | exit s c => rfl
            | exn s e => rfl

theorem strip_parents (a : CpArgs) :
    a.stripSlashes.parents = a.parents := rfl

theorem strip_ntd (a : CpArgs) :
    a.stripSlashes.no_target_directory = a.no_target_directory := rfl

theorem strip_td (a : CpArgs) :
    a.stripSlashes.target_directory = a.target_directory.map rstripSlashes :=
  rfl

theorem strip_DEST (a : CpArgs) :
    a.stripSlashes.DEST = rstripSlashes a.DEST := rfl

theorem strip_SOURCE (a : CpArgs) :
    a.stripSlashes.SOURCE = a.SOURCE.map rstripSlashes := rfl

theorem bind_congr_app (m : M α) (f1 f2 : α → M β) (st : St)
    (hf : ∀ a s, f1 a s = f2 a s) : (m >>= f1) st = (m >>= f2) st := by
  rw [bind_app, bind_app]
  cases m st <;> simp [hf]

theorem bind_unit_rMap (g : α → β) (m1 : M α) (m2 : M β) (st : St)
    (hm : m2 st = rMap g (m1 st)) :
    (m2 >>= fun _ => pure ()) st = (m1 >>= fun _ => pure ()) st := by
  rw [bind_app, bind_app, hm]
  cases m1 st <;> rfl

theorem cpLoop_strip (fuel : Nat) (dest : CPath) (td ss : Bool) :
    ∀ (L : List String) (a : CpArgs) (st : St),
      cpLoop fuel dest td ss a.stripSlashes (L.map rstripSlashes) st =
        rMap CpArgs.stripSlashes (cpLoop fuel dest td ss a L st) := by
  intro L
  induction L with
  | nil => intro a st; rfl
  | cons s rest ih =>
      intro a st
      simp only [List.map_cons, cpLoop, rstripSlashes_idem, strip_parents,
        strip_ntd]
      simp only [bind_app, getSt_app]
      by_cases hP : (resolvePath st.env.cwd (rstripSlashes s)).isCloud =
          true ∧ dest.isCloud = true ∧ a.parents = true
      · simp only [if_pos hP]
        rfl
      · simp only [if_neg hP]
        rw [bind_app, bind_app, (cp_strip_comm fuel).1]
        cases hcp : copyPath fuel a (resolvePath st.env.cwd
              (rstripSlashes s))
            (if ¬td = true ∧ ss = true ∧ ¬a.no_target_directory = true then
              if fsExists st.fs dest = true ∧ fsIsDir st.fs dest = true then
                if a.parents = true then dest.joinRel
                  (resolvePath st.env.cwd (rstripSlashes s))
                else dest.child (resolvePath st.env.cwd
                  (rstripSlashes s)).name
              else dest
            else
              if a.parents = true then dest.joinRel
                (resolvePath st.env.cwd (rstripSlashes s))
              else dest.child (resolvePath st.env.cwd
                (rstripSlashes s)).name) st with
        | ok s1 a1 =>
            simp only [rMap]
            exact ih a1 s1
        | exit s2 c => rfl
        | exn s2 e => rfl

theorem cpRun_strip (fuel : Nat) (a : CpArgs) (st : St)
    (h : isTruthy (a.target_directory.map rstripSlashes) =
      isTruthy a.target_directory) :
    cpRun fuel a.stripSlashes st = cpRun fuel a st := by
  have key : rstripSlashes ((a.target_directory.map rstripSlashes).getD "") =
      rstripSlashes (a.target_directory.getD "") := by
    cases a.target_directory <;> simp [rstripSlashes_idem]
  simp only [cpRun, strip_td, strip_DEST, strip_SOURCE, h, key,
    rstripSlashes_idem, List.length_map, strip_parents, strip_ntd]
  refine bind_congr_app _ _ _ st (fun st0 s0 => ?_)
  refine bind_congr_app _ _ _ s0 (fun dd s => ?_)
  refine bind_congr_app _ _ _ s (fun st2 s2 => ?_)
  refine bind_congr_app _ _ _ s2 (fun x s3 => ?_)
  refine bind_congr_app _ _ _ s3 (fun y s4 => ?_)
  exact bind_unit_rMap CpArgs.stripSlashes _ _ s4
    (cpLoop_strip fuel dd (isTruthy a.target_directory)
      (a.SOURCE.length == 1) a.SOURCE a s4)

theorem mstrip_SOURCE (a : MvArgs) :
    a.stripSlashes.SOURCE = a.SOURCE.map rstripSlashes := rfl

theorem mstrip_DEST (a : MvArgs) :
    a.stripSlashes.DEST = rstripSlashes a.DEST := rfl

theorem mstrip_td (a : MvArgs) :
    a.stripSlashes.target_directory = a.target_directory.map rstripSlashes :=
  rfl

theorem mstrip_u (a : MvArgs) : a.stripSlashes.u = a.u := rfl

theorem map_rstrip_idem : ∀ L : List String,
    (L.map rstripSlashes).map rstripSlashes = L.map rstripSlashes := by
  intro L
  induction L with
  | nil => rfl
  | cons s rest ih => simp [rstripSlashes_idem, ih]

theorem mv_unread_pack : ∀ (fuel : Nat) (S1 S2 : List String) (D1 D2 : String)
    (t1 t2 : Option String) (n1 n2 : Bool) (u i nc v : Bool)
    (upd : Option String) (ia : Bool),
    movePath fuel ⟨S1, D1, u, i, nc, v, t1, n1, upd, ia⟩ =
      movePath fuel ⟨S2, D2, u, i, nc, v, t2, n2, upd, ia⟩ ∧
    moveCloudDir fuel ⟨S1, D1, u, i, nc, v, t1, n1, upd, ia⟩ =
      moveCloudDir fuel ⟨S2, D2, u, i, nc, v, t2, n2, upd, ia⟩ ∧
    moveCDChildren fuel ⟨S1, D1, u, i, nc, v, t1, n1, upd, ia⟩ =
      moveCDChildren fuel ⟨S2, D2, u, i, nc, v, t2, n2, upd, ia⟩ ∧
    moveChildren fuel ⟨S1, D1, u, i, nc, v, t1, n1, upd, ia⟩ =
      moveChildren fuel ⟨S2, D2, u, i, nc, v, t2, n2, upd, ia⟩ := by
  intro fuel
  induction fuel with
  | zero =>
      intro S1 S2 D1 D2 t1 t2 n1 n2 u i nc v upd ia
      refine ⟨?_, ?_, ?_, ?_⟩ <;> funext x y <;>
        simp [movePath, moveCloudDir, moveCDChildren, moveChildren]
  | succ fuel ih =>
      intro S1 S2 D1 D2 t1 t2 n1 n2 u i nc v upd ia
      obtain ⟨ih1, ih2, ih3, ih4⟩ :=
        ih S1 S2 D1 D2 t1 t2 n1 n2 u i nc v upd ia
      refine ⟨?_, ?_, ?_, ?_⟩
      · funext src dst
        simp only [movePath]
        simp only [ih2, ih4]
        rfl
      · funext src dst
        simp only [moveCloudDir]
        simp only [ih3]
      · funext dst L
        cases L with
        | nil => simp only [moveCDChildren]
        | cons item rest =>
            simp only [moveCDChildren]
            simp only [ih2, ih3]
      · funext dst L
        cases L with
        | nil => simp only [moveChildren]
        | cons item rest =>
            simp only [moveChildren]
            simp only [ih1, ih4]

theorem movePath_strip (fuel : Nat) (a : MvArgs) :
    movePath fuel a.stripSlashes = movePath fuel a := by
  cases a with
  | mk S D u i nc v td n upd ia =>
      exact (mv_unread_pack fuel (S.map rstripSlashes) S (rstripSlashes D) D
        (td.map rstripSlashes) td n n u i nc v upd ia).1

theorem mvLoop_strip (fuel : Nat) (a : MvArgs) (dstPath : CPath) :
    ∀ L : List String,
      mvLoop fuel a.stripSlashes dstPath L = mvLoop fuel a dstPath L := by
  intro L
  induction L with
  | nil => rfl
  | cons s rest ih =>
      funext st
      simp only [mvLoop, movePath_strip, ih]
      rfl

theorem mvRun_strip (fuel : Nat) (a : MvArgs) (st : St)
    (h : isTruthy (a.target_directory.map rstripSlashes) =
      isTruthy a.target_directory) :
    mvRun fuel a.stripSlashes st = mvRun fuel a st := by
  have key : rstripSlashes ((a.target_directory.map rstripSlashes).getD "") =
      rstripSlashes (a.target_directory.getD "") := by
    cases a.target_directory <;> simp [rstripSlashes_idem]
  by_cases hu : a.u = true
  · have hu2 : a.stripSlashes.u = true := hu
    simp only [mvRun, if_pos hu2, if_pos hu]
    simp only [mstrip_SOURCE, mstrip_DEST, mstrip_td, h, key,
      rstripSlashes_idem, map_rstrip_idem, List.length_map]
    refine bind_congr_app _ _ _ st (fun st0 s0 => ?_)
    refine bind_congr_app _ _ _ s0 (fun dd s => ?_)
    refine bind_congr_app _ _ _ s (fun st2 s2 => ?_)
    refine bind_congr_app _ _ _ s2 (fun x s3 => ?_)
    exact congrFun (mvLoop_strip fuel { a with update := some "older" } dd.2
      (a.SOURCE.map rstripSlashes)) s3
  · have hu2 : ¬(a.stripSlashes.u = true) := hu
    simp only [mvRun, if_neg hu2, if_neg hu]
    simp only [mstrip_SOURCE, mstrip_DEST, mstrip_td, h, key,
      rstripSlashes_idem, map_rstrip_idem, List.length_map]
    refine bind_congr_app _ _ _ st (fun st0 s0 => ?_)
    refine bind_congr_app _ _ _ s0 (fun dd s => ?_)
    refine bind_congr_app _ _ _ s (fun st2 s2 => ?_)
    refine bind_congr_app _ _ _ s2 (fun x s3 => ?_)
    exact congrFun (mvLoop_strip fuel a dd.2 (a.SOURCE.map rstripSlashes)) s3

/-- C10 amended: once the truthiness of the `--target-directory` option is
unchanged by stripping (the Python code tests `if args.target_directory:`
on the unstripped string), pre-stripping trailing slashes from every path
argument leaves both the cp and the mv runs unchanged, because every use
site applies `rstrip("/")` before path resolution and `rstrip` is
idempotent. -/
theorem cloudsh_c10_amended (fuel : Nat) (ca : CpArgs) (ma : MvArgs)
    (st st2 : St)
    (hc : isTruthy (ca.target_directory.map rstripSlashes) =
      isTruthy ca.target_directory)
    (hm : isTruthy (ma.target_directory.map rstripSlashes) =
      isTruthy ma.target_directory) :
    cpRun fuel ca.stripSlashes st = cpRun fuel ca st ∧
    mvRun fuel ma.stripSlashes st2 = mvRun fuel ma st2 :=
  ⟨cpRun_strip fuel ca st hc, mvRun_strip fuel ma st2 hm⟩

/-- cp namespace of the C10 witness, with trailing slashes on its path
arguments. -/
def c10wc : CpArgs :=
  ⟨["/s.txt/"], "/d/", false, false, false, false, false, false, none,
   false, false, true⟩

/-- mv namespace of the C10 witness. -/
def c10wm : MvArgs :=
  ⟨["/s.txt/"], "/d2/", false, false, false, false, none, false, none, true⟩

/-- Witness for C10: at concrete slash-carrying invocations the stripped
and unstripped runs coincide. -/
theorem cloudsh_c10_witness :
    cpRun 9 c10wc.stripSlashes (stOf c10fs) = cpRun 9 c10wc (stOf c10fs) ∧
    mvRun 9 c10wm.stripSlashes (stOf c10fs) = mvRun 9 c10wm (stOf c10fs) :=
  cloudsh_c10_amended 9 c10wc c10wm (stOf c10fs) (stOf c10fs) (by rfl)
    (by rfl)
